import Mathlib

/-!
Verification development for the constrained-generation care-plan pipeline
(`backend/diagnosis_matcher.py`, `backend/utils.py`, `backend/main.py`).

The Python data that flows through the validators is modelled by `JValue`
(the result of `json.loads`);  Python dictionaries become association lists
in insertion order (keys are unique in a Python dict).  Python truthiness
and `len` are modelled explicitly; an operation that would raise a Python
exception (for example `len` on a number) is modelled by `Option`, with
`none` standing for the raised exception.
-/

/-- A JSON value, as produced by `json.loads`.  Numbers are kept as their
source token (the validators only ever test truthiness of numbers, and the
claims never compare numeric values), booleans, null, strings, arrays and
objects are structural. -/
inductive JValue : Type where
  | null : JValue
  | bool (b : Bool) : JValue
  | num (token : List Char) : JValue
  | str (s : String) : JValue
  | arr (items : List JValue) : JValue
  | obj (fields : List (String × JValue)) : JValue

/-- A Python dict of JSON values: an association list in insertion order. -/
abbrev JDict : Type := List (String × JValue)

/-- Python truthiness of a JSON value: `bool(v)`. A numeric token is falsy
exactly when it denotes zero, i.e. when its mantissa has no nonzero digit
(`0`, `0.0`, `-0`, `0e5`, ...). -/
def jtruthy : JValue → Bool
  | .null => false
  | .bool b => b
  | .num t =>
    (t.takeWhile (fun c => !(c = 'e' || c = 'E'))).any
      (fun c => decide ('1' ≤ c ∧ c ≤ '9'))
  | .str s => s != ""
  | .arr items => !items.isEmpty
  | .obj fields => !fields.isEmpty

/-- Python `len(v)`.  `none` models the `TypeError` raised on values that
have no length (numbers, booleans, null). -/
def jlen : JValue → Option Nat
  | .str s => some s.length
  | .arr items => some items.length
  | .obj fields => some fields.length
  | _ => none

/-- Python `d.get(k)` / `d[k]` on a dict: the value stored under the key
(first occurrence; a real Python dict has unique keys). -/
def jget (d : JDict) (k : String) : Option JValue :=
  match d with
  | [] => none
  | (k', v) :: rest => if k' = k then some v else jget rest k

/-- Python `k in d` for a dict. -/
def jmem (d : JDict) (k : String) : Bool :=
  (jget d k).isSome

/-- Python whitespace (`str.strip` and the regex `\s` on ASCII text). -/
def isPyWs (c : Char) : Bool :=
  c = ' ' || c = '\t' || c = '\n' || c = '\r' || c = '\x0b' || c = '\x0c'

/-- Python `str.strip()` on characters: drop whitespace at both ends. -/
def pyStrip (s : List Char) : List Char :=
  ((s.dropWhile isPyWs).reverse.dropWhile isPyWs).reverse

/-- Python `str.lower()` on the ASCII labels in use. -/
def pyLower (s : List Char) : List Char :=
  s.map (fun c => if 'A' ≤ c ∧ c ≤ 'Z' then Char.ofNat (c.toNat + 32) else c)

/-- The seven required top-level sections of an NCP document
(`utils.validate_ncp_structure`). -/
def requiredSections : List String :=
  ["assessment", "diagnosis", "outcomes", "interventions", "rationale",
   "implementation", "evaluation"]

/-- One pass of the per-section content check inside
`validate_ncp_structure`: the section content is rejected when it is falsy,
when it is a string whose stripped length is below 10, or when it is a dict
none of whose values is truthy. -/
def sectionContentOk (v : JValue) : Bool :=
  if !jtruthy v then false
  else
    match v with
    | .str s => decide (10 ≤ (pyStrip s.data).length)
    | .obj fields => fields.any (fun kv => jtruthy kv.2)
    | _ => true

/-- Python `d.get(k) and len(d[k]) > 0` as it appears in
`validate_ncp_structure` for `short_term`, `long_term` and the three
intervention categories.  `none` models a raised `TypeError` (the key is
present, truthy, and its value has no `len`). -/
def truthyWithLen (d : JDict) (k : String) : Option Bool :=
  match jget d k with
  | none => some false
  | some v =>
    if !jtruthy v then some false
    else (jlen v).map (fun n => decide (0 < n))

/-- `utils.validate_ncp_structure`.  `some b` is a normal Boolean return,
`none` a raised exception.  Mirrors the Python control flow: presence of
the seven sections, the per-section content loop, the `outcomes` check
(at least one of `short_term`/`long_term` non-empty), the `interventions`
check (at least one of the three categories non-empty) and the final
`rationale.interventions` truthiness check. -/
def validate_ncp_structure (ncp : JDict) : Option Bool :=
  if !(requiredSections.all (fun s => jmem ncp s)) then some false
  else if !(ncp.all (fun kv =>
      !(requiredSections.contains kv.1) || sectionContentOk kv.2)) then
    some false
  else
    match (jget ncp "outcomes").getD (.obj []) with
    | .obj ofs =>
      (truthyWithLen ofs "short_term").bind (fun hs =>
      (truthyWithLen ofs "long_term").bind (fun hl =>
      if !(hs || hl) then some false
      else
        match (jget ncp "interventions").getD (.obj []) with
        | .obj ifs =>
          (truthyWithLen ifs "independent").bind (fun hi =>
          (truthyWithLen ifs "dependent").bind (fun hd =>
          (truthyWithLen ifs "collaborative").bind (fun hc =>
          if !(hi || hd || hc) then some false
          else
            match (jget ncp "rationale").getD (.obj []) with
            | .obj rfs =>
              some (match jget rfs "interventions" with
                    | some v => jtruthy v
                    | none => false)
            | _ => some false)))
        | _ => some false))
    | _ => some false

/-!
## Selection stage: `VectorDiagnosisMatcher.select_best_diagnosis`

A candidate diagnosis row as built by `find_candidate_diagnoses` (the
similarity score is intentionally excluded).  `definition` may be `None`
in the database, hence `Option`.
-/

/-- A candidate diagnosis record (`diagnosis_matcher.find_candidate_diagnoses`). -/
structure Candidate : Type where
  id : String
  diagnosis : String
  definition : Option String
  defining_characteristics : List String
  related_factors : List String
  risk_factors : List String
  suggested_outcomes : List String
  suggested_interventions : List String

/-- The dict returned by `select_best_diagnosis`: either the "no candidates"
sentinel (all fields `None`/empty, no `id` key) or a candidate's data merged
with the oracle's reasoning. -/
structure SelectionOut : Type where
  id : Option String
  diagnosis : Option String
  definition : Option String
  defining_characteristics : List String
  related_factors : List String
  risk_factors : List String
  suggested_outcomes : List String
  suggested_interventions : List String
  reasoning : String

/-- The sentinel returned when the candidate list is empty
(`diagnosis_matcher.py`, the early return in `select_best_diagnosis`). -/
def noDiagnosisResult : SelectionOut where
  id := none
  diagnosis := none
  definition := none
  defining_characteristics := []
  related_factors := []
  risk_factors := []
  suggested_outcomes := []
  suggested_interventions := []
  reasoning := "No suitable diagnoses found for the provided assessment data."

/-- The dict `{**candidate, "reasoning": reasoning}` built by
`find_matching_candidate` (and, with the fixed fallback reasoning, by the
exhaustion fallback `candidates[0].copy()`). -/
def resultOfCandidate (c : Candidate) (reasoning : String) : SelectionOut where
  id := some c.id
  diagnosis := some c.diagnosis
  definition := c.definition
  defining_characteristics := c.defining_characteristics
  related_factors := c.related_factors
  risk_factors := c.risk_factors
  suggested_outcomes := c.suggested_outcomes
  suggested_interventions := c.suggested_interventions
  reasoning := reasoning

/-- The fixed reasoning of the exhaustion fallback. -/
def fallbackReasoning : String :=
  "AI selection failed after multiple attempts. Returned first candidate as fallback based on highest similarity score."

/-- Python `x.strip().lower()`: the normalisation applied on both sides of
the label comparison. -/
def normLabel (s : String) : List Char := pyLower (pyStrip s.data)

/-- `validate_ai_selection` (`diagnosis_matcher.py` and `utils.py`): the
oracle's `diagnosis` field, stripped, is non-empty and case-insensitively
equal to some candidate's stripped label.  `selectedField` is
`ai_response.get('diagnosis', '')`. -/
def validate_ai_selection (selectedField : String) (cands : List Candidate) : Bool :=
  let selected := pyStrip selectedField.data
  if selected.isEmpty then false
  else (cands.map (fun c => normLabel c.diagnosis)).contains (pyLower selected)

/-- `find_matching_candidate` (`diagnosis_matcher.py` and `utils.py`): the
first candidate in list order whose normalised label equals the normalised
selection, merged with the oracle's reasoning
(`ai_response.get('reasoning', 'No reasoning provided')`). -/
def find_matching_candidate (selectedField : String) (reasoningField : Option String)
    (cands : List Candidate) : Option SelectionOut :=
  match cands with
  | [] => none
  | c :: rest =>
    if normLabel c.diagnosis = pyLower (pyStrip selectedField.data) then
      some (resultOfCandidate c (reasoningField.getD "No reasoning provided"))
    else
      find_matching_candidate selectedField reasoningField rest

/-- The observable outcome of one oracle call in the selection loop,
abstracting the raw response text at the point where the loop branches:
no/empty response, no extractable JSON object, a `json.loads` failure, a
parsed object whose `diagnosis` value is not a string (the `.strip()` call
then raises, caught by the blanket handler), or a parsed object with its
optional string fields (`none` = key absent). -/
inductive OracleResp : Type where
  | empty : OracleResp
  | noJson : OracleResp
  | badJson : OracleResp
  | typeErr : OracleResp
  | parsed (diagnosis : Option String) (reasoning : Option String) : OracleResp

/-- A usage-tracking side effect (`ncp_request_tracker`): one
`track_api_call` or `track_error` invocation. -/
inductive TrackEvent : Type where
  | apiCall (step : String) (attempt : Nat) : TrackEvent
  | errorReport (step : String) : TrackEvent

/-- Python `str.replace` on character lists (all non-overlapping
occurrences, scanned left to right, replacements not rescanned), for the
non-empty pattern used at the single call site (`"# CRITICAL RULES"`). -/
def replaceAllL (pat rep : List Char) : List Char → List Char
  | [] => []
  | c :: rest =>
    if h : pat ≠ [] ∧ pat.isPrefixOf (c :: rest) then
      rep ++ replaceAllL pat rep ((c :: rest).drop pat.length)
    else
      c :: replaceAllL pat rep rest
termination_by s => s.length
decreasing_by
  · simp only [List.length_drop]
    exact Nat.sub_lt (Nat.succ_pos _) (List.length_pos.mpr h.1)
  · simp

/-- Python `str.replace` lifted to `String`. -/
def pyReplace (s pat rep : String) : String :=
  String.mk (replaceAllL pat.data rep.data s.data)

/-- Python `', '.join(arr) if arr else 'None'` (the local `safe_join`). -/
def safeJoin (arr : List String) : String :=
  if arr.isEmpty then "None" else String.intercalate ", " arr

/-- Python `x or default` for an optional string (`None` and `""` are falsy). -/
def pyOrStr (v : Option String) (dflt : String) : String :=
  match v with
  | none => dflt
  | some s => if s = "" then dflt else s

/-- One candidate's block of `candidates_text` (the f-string appended per
candidate in `select_best_diagnosis`). -/
def candidateBlock (c : Candidate) : String :=
  "\n                    **Candidate: " ++ c.diagnosis ++
  "**\n                    Definition: " ++ pyOrStr c.definition "Not available" ++
  "\n                    Defining Characteristics: " ++ safeJoin c.defining_characteristics ++
  "\n                    Related Factors: " ++ safeJoin c.related_factors ++
  "\n                    Risk Factors: " ++ safeJoin c.risk_factors ++
  "\n                    Suggested Outcomes: " ++ safeJoin c.suggested_outcomes ++
  "\n                    Suggested Interventions: " ++ safeJoin c.suggested_interventions ++
  "\n                "

/-- `candidates_text`: the concatenation of all candidate blocks. -/
def candidatesText (cands : List Candidate) : String :=
  String.join (cands.map candidateBlock)

/-- The literal replaced on retry: `"# CRITICAL RULES"`. -/
def criticalMarker : String := "# CRITICAL RULES"

/-- The selection prompt up to (excluding) the `# CRITICAL RULES` heading. -/
def selPromptPre : String :=
  "\n                You are a nursing educator AI with deep knowledge of NANDA-I (2021–2023), NIC, and NOC standards.\n                Your task is to select the single best nursing diagnosis for a patient, based strictly on the provided assessment data and the candidate diagnoses from the database lookup.\n\n                "

/-- The selection prompt between the `# CRITICAL RULES` heading and the
`{formatted_assessment}` hole. -/
def selPromptMid1 : String :=
  "\n                - You MUST choose EXACTLY ONE diagnosis from the provided candidate list below\n                - You CANNOT invent, modify, or create any diagnosis names\n                - Copy the diagnosis name EXACTLY as written in the candidate list\n                - Always apply nursing prioritization frameworks when selecting:\n                    * ABC (Airway, Breathing, Circulation) → highest priority\n                    * Maslow’s hierarchy of needs → physiological and safety before psychosocial\n                    * Actual problems > Risk for > Psychosocial\n                - If multiple diagnoses seem possible, select the one with the **highest immediate clinical risk** \n                - The selected diagnosis must align with the patient’s priority problem/chief complaint\n                - Return the complete information for the selected diagnosis as JSON\n                - Include a brief clinical explanation of why this diagnosis was selected over others, including how it matches the patient\x27s assessment data and clinical priorities\n\n                # Patient Assessment Data\n                "

/-- The selection prompt between the assessment hole and the
`{candidates_text}` hole. -/
def selPromptMid2 : String :=
  "\n\n                # Candidate Diagnoses (CHOOSE EXACTLY ONE FROM THIS LIST)\n                "

/-- The selection prompt after the `{candidates_text}` hole. -/
def selPromptSuf : String :=
  "\n\n                # Expected Output (JSON)\n                \x7b\n                    \"diagnosis\": \"EXACT diagnosis name from candidate list - copy it precisely\",\n                    \"reasoning\": \"brief explanation of why this diagnosis best fits the patient\"\n                \x7d\n\n                IMPORTANT: Only return the diagnosis name and reasoning. Do not include other fields like definition, characteristics, etc. - we will get those from the original candidate data.\n\n                Ensure the response is valid JSON with no additional text.\n            "

/-- The initial `ai_prompt` f-string of `select_best_diagnosis`, with
`format_structured_data(assessment_data)` passed in as the already-rendered
`formattedAssessment` text. -/
def buildSelectionPrompt (formattedAssessment : String) (cands : List Candidate) : String :=
  selPromptPre ++ criticalMarker ++ selPromptMid1 ++ formattedAssessment ++
    selPromptMid2 ++ candidatesText cands ++ selPromptSuf

/-- The corrective f-string spliced over `# CRITICAL RULES` after an
invalid-label attempt; `selected` is `ai_response.get('diagnosis', 'None')`. -/
def correctionBlock (selected : String) (cands : List Candidate) : String :=
  "# CRITICAL RULES - PREVIOUS ATTEMPT FAILED\n                                    YOUR LAST SELECTION \"" ++
  selected ++
  "\" WAS INVALID!\n                                    You must select from these EXACT names: " ++
  String.intercalate ", " (cands.map (fun c => "\"" ++ c.diagnosis ++ "\"")) ++
  "\n                                    "

/-- What one run of `select_best_diagnosis` produces: the returned dict,
the prompt text passed to the oracle on each attempt actually made (in
order), and the usage-tracking events emitted (the selection loop contains
no `track_api_call`/`track_error` calls, so this list is built empty by the
loop itself). -/
structure SelTrace : Type where
  result : SelectionOut
  promptsUsed : List String
  trackEvents : List TrackEvent

/-- The retry loop of `select_best_diagnosis` (`for attempt in
range(max_retries)` with `max_retries = 3`).  `remaining` counts the
attempts still available (`3 - attempt`), `i` is the index into the oracle
response sequence, `prompt` the current `ai_prompt`.  The corrective
replacement happens only in the invalid-label branch and only when
`attempt < max_retries - 1` (`remaining ≠ 1`); all other failure branches
(`continue` / swallowed exceptions) leave the prompt unchanged.  With an
empty candidate list the loop is never entered, so the `[]` fallback arm is
unreachable. -/
def selLoopAux (cands : List Candidate) (resps : Nat → OracleResp) :
    Nat → Nat → String → SelTrace
  | 0, _, _ =>
    { result :=
        match cands with
        | [] => noDiagnosisResult
        | c :: _ => resultOfCandidate c fallbackReasoning
      promptsUsed := []
      trackEvents := [] }
  | n + 1, i, prompt =>
    match resps i with
    | .parsed d reas =>
      if validate_ai_selection (d.getD "") cands then
        match find_matching_candidate (d.getD "") reas cands with
        | some r => { result := r, promptsUsed := [prompt], trackEvents := [] }
        | none =>
          let t := selLoopAux cands resps n (i + 1) prompt
          { t with promptsUsed := prompt :: t.promptsUsed }
      else
        let prompt' :=
          if n ≠ 0 then
            pyReplace prompt criticalMarker (correctionBlock (d.getD "None") cands)
          else prompt
        let t := selLoopAux cands resps n (i + 1) prompt'
        { t with promptsUsed := prompt :: t.promptsUsed }
    | _ =>
      let t := selLoopAux cands resps n (i + 1) prompt
      { t with promptsUsed := prompt :: t.promptsUsed }

/-- `VectorDiagnosisMatcher.select_best_diagnosis`: empty candidate lists
short-circuit to the sentinel without any oracle call; otherwise the
bounded retry loop runs with the freshly built selection prompt. -/
def select_best_diagnosis (formattedAssessment : String) (cands : List Candidate)
    (resps : Nat → OracleResp) : SelTrace :=
  if cands.isEmpty then
    { result := noDiagnosisResult, promptsUsed := [], trackEvents := [] }
  else
    selLoopAux cands resps 3 0 (buildSelectionPrompt formattedAssessment cands)

/-!
## Generation stage: `main.generate_structured_ncp`

The observable outcome of one attempt of the generation loop.  The oracle
call (`claude_client.messages.create`) either raises before the usage is
tracked (`transportErr`), or returns and is tracked, after which the
attempt can fail on an empty response, on JSON extraction, on `json.loads`,
on a JSON value that is not an object (every such value makes
`validate_ncp_structure` either return `False` or raise, so the attempt
fails), or produce a parsed plan dict that the validator judges.
-/

/-- One attempt's outcome in the generation loop. -/
inductive GenResp : Type where
  | transportErr : GenResp
  | emptyResp : GenResp
  | noJson : GenResp
  | badJson : GenResp
  | nonObjJson : GenResp
  | plan (fields : JDict) : GenResp

/-- The terminal error raised by `generate_structured_ncp`: via the blanket
`except Exception` handler at the last attempt, via the `JSONDecodeError`
handler at the last attempt, or the final `raise` after the loop (which is
unreachable, since every last-attempt failure raises inside the loop). -/
inductive GenError : Type where
  | generationFailed : GenError
  | jsonParsingFailed : GenError
  | exhausted : GenError

/-- What one run of `generate_structured_ncp` produces: the validated plan
or the raised terminal error, the indices of the attempts actually made,
and the tracking events emitted. -/
structure GenTrace : Type where
  result : Except GenError JDict
  attempts : List Nat
  trackEvents : List TrackEvent

/-- The retry loop of `generate_structured_ncp` (`max_retries = 3` by
default).  `remaining` counts the attempts still available, `i` the index
into the oracle outcome sequence.  Every attempt whose API call returns
reports usage through `track_api_call` (one `apiCall` event, carrying
`attempt + 1` as in the source); a transport failure raises before the
tracking call, so that attempt reports nothing.  A last-attempt failure
additionally calls `track_error` before raising. -/
def genLoopAux (resps : Nat → GenResp) : Nat → Nat → GenTrace
  | 0, _ => { result := .error .exhausted, attempts := [], trackEvents := [] }
  | n + 1, i =>
    match resps i with
    | .transportErr =>
      if n = 0 then
        { result := .error .generationFailed, attempts := [i],
          trackEvents := [.errorReport "generate_ncp"] }
      else
        let t := genLoopAux resps n (i + 1)
        { t with attempts := i :: t.attempts }
    | .badJson =>
      let ev := TrackEvent.apiCall "generate_ncp" (i + 1)
      if n = 0 then
        { result := .error .jsonParsingFailed, attempts := [i],
          trackEvents := [ev, .errorReport "generate_ncp"] }
      else
        let t := genLoopAux resps n (i + 1)
        { t with attempts := i :: t.attempts, trackEvents := ev :: t.trackEvents }
    | .plan fields =>
      let ev := TrackEvent.apiCall "generate_ncp" (i + 1)
      if validate_ncp_structure fields = some true then
        { result := .ok fields, attempts := [i], trackEvents := [ev] }
      else if n = 0 then
        { result := .error .generationFailed, attempts := [i],
          trackEvents := [ev, .errorReport "generate_ncp"] }
      else
        let t := genLoopAux resps n (i + 1)
        { t with attempts := i :: t.attempts, trackEvents := ev :: t.trackEvents }
    | _ =>
      let ev := TrackEvent.apiCall "generate_ncp" (i + 1)
      if n = 0 then
        { result := .error .generationFailed, attempts := [i],
          trackEvents := [ev, .errorReport "generate_ncp"] }
      else
        let t := genLoopAux resps n (i + 1)
        { t with attempts := i :: t.attempts, trackEvents := ev :: t.trackEvents }

/-- `generate_structured_ncp` with its default `max_retries = 3`, as a
function of the per-attempt oracle outcomes. -/
def generate_structured_ncp (resps : Nat → GenResp) : GenTrace :=
  genLoopAux resps 3 0

/-!
## JSON extraction (`select_best_diagnosis` and `generate_structured_ncp`)

Both loops clean the oracle text and extract a JSON span identically:
first `re.search(r'```(?:json)?\s*(\{.*?\})\s*```', s, re.DOTALL)` and, if
it matches, the text is narrowed to group 1; then `s.find('{')` /
`s.rfind('}')` cut the outermost brace span, which is handed to
`json.loads`.  The regex is modelled directly: the pattern's quantifier
choices are all forced (`(?:json)?` cannot trade against `\s*` or `\{`,
and the whitespace classes are disjoint from the literals that follow
them), so the lazy `.*?` amounts to choosing the first `}` that is
followed by optional whitespace and three backticks.  `\s` is modelled as
the six ASCII whitespace characters Python uses for ASCII text.
-/

/-- Drop leading regex whitespace (a greedy `\s*` whose follower is never a
whitespace character). -/
def dropPyWs (s : List Char) : List Char := s.dropWhile isPyWs

/-- The closing fence literal. -/
def fenceTicks : List Char := ['`', '`', '`']

/-- Does `\s*` followed by three backticks match here? (The regex suffix
after the group's closing brace.) -/
def closesFence (s : List Char) : Bool :=
  fenceTicks.isPrefixOf (dropPyWs s)

/-- The lazy `.*?\}` of the fence regex, positioned just after the group's
opening `{`: the group body up to and including the first `}` whose suffix
matches `\s*` + three backticks. -/
def lazyBody : List Char → Option (List Char)
  | [] => none
  | c :: rest =>
    if c = '}' && closesFence rest then some ['}']
    else (lazyBody rest).map (fun g => c :: g)

/-- Attempt the whole fence pattern anchored at this position; on success,
return regex group 1 (`\{.*?\}`). -/
def tryFenceAt (s : List Char) : Option (List Char) :=
  if fenceTicks.isPrefixOf s then
    let s1 := s.drop 3
    let s2 := if ['j', 's', 'o', 'n'].isPrefixOf s1 then s1.drop 4 else s1
    match dropPyWs s2 with
    | '{' :: rest => (lazyBody rest).map (fun g => '{' :: g)
    | _ => none
  else none

/-- `re.search`: the match anchored at the leftmost position where the
whole pattern succeeds, returning group 1. -/
def fenceSearch : List Char → Option (List Char)
  | [] => none
  | c :: rest =>
    match tryFenceAt (c :: rest) with
    | some g => some g
    | none => fenceSearch rest

/-- Python `s.find(c)`. -/
def pyFind (s : List Char) (c : Char) : Option Nat :=
  match s with
  | [] => none
  | x :: rest => if x = c then some 0 else (pyFind rest c).map (fun i => i + 1)

/-- Python `s.rfind(c)`. -/
def pyRFind (s : List Char) (c : Char) : Option Nat :=
  (pyFind s.reverse c).map (fun j => s.length - 1 - j)

/-- The shared extraction: narrow to regex group 1 when the fence pattern
matches, then slice `s[s.find('{') : s.rfind('}') + 1]`; `none` when either
brace is missing (the loops' "Could not extract valid JSON" branch). -/
def extractJsonSpan (cleaned : List Char) : Option (List Char) :=
  let narrowed :=
    match fenceSearch cleaned with
    | some g => g
    | none => cleaned
  match pyFind narrowed '{', pyRFind narrowed '}' with
  | some st, some en => some ((narrowed.drop st).take (en + 1 - st))
  | _, _ => none

/-- The fence wrapping of the idempotent-parsing property: the JSON text
inside a Markdown ```json code block. -/
def wrapFences (j : List Char) : List Char :=
  ("```json\n").data ++ j ++ ("\n```").data

/-!
## A model of `json.loads` on the extracted span

Recursive-descent parser for the JSON grammar accepted by Python's strict
`json.loads`: optional surrounding whitespace, objects, arrays, strings
with the standard escapes, numbers (kept as their source token), `true`,
`false`, `null`.  A `\uXXXX` escape becomes the character with that code
(surrogate-pair combination is not modelled; no claim exercises it).
Nesting recursion is bounded by a character-count fuel: every nested value
is preceded by at least one consumed character, so `length + 1` fuel never
runs out on a real input.
-/

/-- JSON insignificant whitespace. -/
def isJsonWs (c : Char) : Bool :=
  c = ' ' || c = '\t' || c = '\n' || c = '\r'

/-- Skip JSON whitespace. -/
def jsonSkipWs (s : List Char) : List Char := s.dropWhile isJsonWs

/-- Hexadecimal digit value. -/
def hexVal (c : Char) : Option Nat :=
  if '0' ≤ c ∧ c ≤ '9' then some (c.toNat - 48)
  else if 'a' ≤ c ∧ c ≤ 'f' then some (c.toNat - 87)
  else if 'A' ≤ c ∧ c ≤ 'F' then some (c.toNat - 55)
  else none

/-- Parse the body of a JSON string, the opening quote already consumed;
returns the decoded string and the rest after the closing quote. -/
def parseStringBody : List Char → Option (String × List Char)
  | [] => none
  | '"' :: rest => some ("", rest)
  | '\\' :: 'u' :: a :: b :: c :: d :: rest =>
    match hexVal a, hexVal b, hexVal c, hexVal d with
    | some ha, some hb, some hc, some hd =>
      (parseStringBody rest).map (fun p =>
        (String.mk (Char.ofNat (ha * 4096 + hb * 256 + hc * 16 + hd) :: p.1.data), p.2))
    | _, _, _, _ => none
  | '\\' :: e :: rest =>
    let dec : Option Char :=
      if e = '"' then some '"'
      else if e = '\\' then some '\\'
      else if e = '/' then some '/'
      else if e = 'b' then some '\x08'
      else if e = 'f' then some '\x0c'
      else if e = 'n' then some '\n'
      else if e = 'r' then some '\r'
      else if e = 't' then some '\t'
      else none
    match dec with
    | some c => (parseStringBody rest).map (fun p => (String.mk (c :: p.1.data), p.2))
    | none => none
  | c :: rest =>
    if c.toNat < 32 then none
    else (parseStringBody rest).map (fun p => (String.mk (c :: p.1.data), p.2))

/-- Parse a JSON number token (strict grammar: `-?(0|[1-9][0-9]*)` with
optional fraction and exponent); returns the token and the rest. -/
def parseNumToken (s : List Char) : Option (List Char × List Char) :=
  let (sign, s1) : List Char × List Char :=
    match s with
    | '-' :: r => (['-'], r)
    | _ => ([], s)
  let intPart : Option (List Char × List Char) :=
    match s1 with
    | '0' :: r => some (['0'], r)
    | c :: _ =>
      if '1' ≤ c ∧ c ≤ '9' then
        some (s1.takeWhile Char.isDigit, s1.dropWhile Char.isDigit)
      else none
    | [] => none
  match intPart with
  | none => none
  | some (ip, s2) =>
    let fracPart : Option (List Char × List Char) :=
      match s2 with
      | '.' :: r =>
        let ds := r.takeWhile Char.isDigit
        if ds.isEmpty then none else some ('.' :: ds, r.dropWhile Char.isDigit)
      | _ => some ([], s2)
    match fracPart with
    | none => none
    | some (fp, s3) =>
      let expPart : Option (List Char × List Char) :=
        match s3 with
        | e :: r =>
          if e = 'e' ∨ e = 'E' then
            let (es, r1) : List Char × List Char :=
              match r with
              | '+' :: r' => (['+'], r')
              | '-' :: r' => (['-'], r')
              | _ => ([], r)
            let ds := r1.takeWhile Char.isDigit
            if ds.isEmpty then none
            else some (e :: es ++ ds, r1.dropWhile Char.isDigit)
          else some ([], s3)
        | [] => some ([], s3)
      match expPart with
      | none => none
      | some (ep, s4) => some (sign ++ ip ++ fp ++ ep, s4)

mutual

/-- Parse one JSON value after skipping leading whitespace. -/
def parseValue : Nat → List Char → Option (JValue × List Char)
  | 0, _ => none
  | fuel + 1, s =>
    match jsonSkipWs s with
    | 'n' :: 'u' :: 'l' :: 'l' :: rest => some (.null, rest)
    | 't' :: 'r' :: 'u' :: 'e' :: rest => some (.bool true, rest)
    | 'f' :: 'a' :: 'l' :: 's' :: 'e' :: rest => some (.bool false, rest)
    | '"' :: rest => (parseStringBody rest).map (fun p => (.str p.1, p.2))
    | '{' :: rest =>
      (match jsonSkipWs rest with
       | '}' :: rest' => some (.obj [], rest')
       | s' => (parseMembers fuel s').map (fun p => (.obj p.1, p.2)))
    | '[' :: rest =>
      (match jsonSkipWs rest with
       | ']' :: rest' => some (.arr [], rest')
       | s' => (parseItems fuel s').map (fun p => (.arr p.1, p.2)))
    | s' => (parseNumToken s').map (fun p => (.num p.1, p.2))

/-- Parse `string : value (, string : value)* }`, at a non-`}` position. -/
def parseMembers : Nat → List Char → Option (List (String × JValue) × List Char)
  | 0, _ => none
  | fuel + 1, s =>
    match jsonSkipWs s with
    | '"' :: rest =>
      match parseStringBody rest with
      | none => none
      | some (key, s1) =>
        match jsonSkipWs s1 with
        | ':' :: s2 =>
          match parseValue fuel s2 with
          | none => none
          | some (v, s3) =>
            match jsonSkipWs s3 with
            | ',' :: s4 =>
              (parseMembers fuel s4).map (fun p => ((key, v) :: p.1, p.2))
            | '}' :: s4 => some ([(key, v)], s4)
            | _ => none
        | _ => none
    | _ => none

/-- Parse `value (, value)* ]`, at a non-`]` position. -/
def parseItems : Nat → List Char → Option (List JValue × List Char)
  | 0, _ => none
  | fuel + 1, s =>
    match parseValue fuel s with
    | none => none
    | some (v, s1) =>
      match jsonSkipWs s1 with
      | ',' :: s2 => (parseItems fuel s2).map (fun p => (v :: p.1, p.2))
      | ']' :: s2 => some ([v], s2)
      | _ => none

end

/-- `json.loads` on a character span: one JSON value with optional
surrounding whitespace and nothing else. -/
def jsonLoads (s : List Char) : Option JValue :=
  match parseValue (s.length + 1) s with
  | some (v, rest) => if (jsonSkipWs rest).isEmpty then some v else none
  | none => none

/-- The full "clean and parse" pipeline both retry loops apply to the
oracle text: extract the JSON span, then `json.loads` it. -/
def extractAndParse (cleaned : List Char) : Option JValue :=
  (extractJsonSpan cleaned).bind jsonLoads

/-!
## Predicates and observers used by the claims
-/

/-- A selection attempt that fails the loop's validation: anything but a
parsed response whose `diagnosis` passes `validate_ai_selection`. -/
def selAttemptFails (r : OracleResp) (cands : List Candidate) : Prop :=
  match r with
  | .parsed d _ => validate_ai_selection (d.getD "") cands = false
  | _ => True

/-- A generation attempt that fails: anything but a parsed plan accepted by
`validate_ncp_structure`. -/
def genAttemptFails (r : GenResp) : Prop :=
  match r with
  | .plan fields => validate_ncp_structure fields ≠ some true
  | _ => True

/-- The intervention ids declared in `interventions.independent` of a plan
document. -/
def declaredIndependentIds (ncp : JDict) : List String :=
  match jget ncp "interventions" with
  | some (.obj ifs) =>
    match jget ifs "independent" with
    | some (.arr items) =>
      items.filterMap (fun item =>
        match item with
        | .obj fs =>
          match jget fs "id" with
          | some (.str s) => some s
          | _ => none
        | _ => none)
    | _ => []
  | _ => []

/-- The intervention ids that have an entry in `rationale.interventions`. -/
def rationaleInterventionIds (ncp : JDict) : List String :=
  match jget ncp "rationale" with
  | some (.obj rfs) =>
    match jget rfs "interventions" with
    | some (.obj m) => m.map Prod.fst
    | _ => []
  | _ => []

/-- Does the plan's `rationale` carry a truthy `interventions` entry — the
only thing the validator's final stage actually checks? -/
def rationaleHasTruthyInterventions (ncp : JDict) : Bool :=
  match jget ncp "rationale" with
  | some (.obj rfs) =>
    match jget rfs "interventions" with
    | some v => jtruthy v
    | none => false
  | _ => false

/-- The claim's notion of an "empty" required section: a string below the
minimal stripped length of 10, or an object none of whose values is truthy. -/
def claimEmptySection (v : JValue) : Bool :=
  match v with
  | .str s => decide ((pyStrip s.data).length < 10)
  | .obj fields => fields.all (fun kv => !jtruthy kv.2)
  | _ => false

/-- A key of a sub-dict that is absent or falsy (hence "not non-empty"). -/
def keyEmptyish (fs : JDict) (k : String) : Bool :=
  match jget fs k with
  | none => true
  | some v => !jtruthy v

/-- The `d.get(k) and len(d[k]) > 0` pattern evaluates without raising:
the key is absent, its value is falsy, or its value has a length. -/
def keyCheckTotal (fs : JDict) (k : String) : Bool :=
  match jget fs k with
  | none => true
  | some v => !jtruthy v || (jlen v).isSome

/-- The plan's `outcomes` has neither a non-empty `short_term` nor a
non-empty `long_term` (with `outcomes` itself present and an object, as
the claim presupposes). -/
def outcomesBothEmpty (ncp : JDict) : Prop :=
  ∃ ofs, jget ncp "outcomes" = some (.obj ofs) ∧
    keyEmptyish ofs "short_term" = true ∧ keyEmptyish ofs "long_term" = true

/-- The plan's `interventions` has no non-empty category among
`independent`/`dependent`/`collaborative`. -/
def interventionsNoCategory (ncp : JDict) : Prop :=
  ∃ ifs, jget ncp "interventions" = some (.obj ifs) ∧
    keyEmptyish ifs "independent" = true ∧ keyEmptyish ifs "dependent" = true ∧
    keyEmptyish ifs "collaborative" = true

/-- The `outcomes` stage of the validator cannot raise: `outcomes` is
absent, not a dict, or a dict whose `short_term`/`long_term` checks are
total. -/
def outcomesCheckTotal (ncp : JDict) : Prop :=
  ∀ ofs, jget ncp "outcomes" = some (.obj ofs) →
    keyCheckTotal ofs "short_term" = true ∧ keyCheckTotal ofs "long_term" = true

/-- Is a tracking event a usage record (`track_api_call`)? -/
def isApiCall (e : TrackEvent) : Bool :=
  match e with
  | .apiCall _ _ => true
  | .errorReport _ => false

/-- Did this attempt's API call itself raise (so that `track_api_call` was
never reached)? -/
def isTransportErr (r : GenResp) : Bool :=
  match r with
  | .transportErr => true
  | _ => false

/-!
## Concrete data for counterexamples and witnesses
-/

/-- A two-candidate list: the running example of the specification. -/
def cexCands : List Candidate :=
  [{ id := "d1", diagnosis := "Acute Pain", definition := some "Unpleasant sensory experience",
     defining_characteristics := ["guarding"], related_factors := ["injury"],
     risk_factors := [], suggested_outcomes := ["pain reduced"],
     suggested_interventions := ["assess pain"] },
   { id := "d2", diagnosis := "Anxiety", definition := none,
     defining_characteristics := [], related_factors := [],
     risk_factors := [], suggested_outcomes := [], suggested_interventions := [] }]

/-- Oracle outcomes: attempt 1 returns unparsable JSON, attempt 2 a valid
selection. -/
def cexRespsBadJsonFirst : Nat → OracleResp :=
  fun i => if i = 0 then .badJson else .parsed (some "Acute Pain") (some "matches vitals")

/-- Oracle outcomes: the first attempt immediately returns a valid
selection. -/
def cexRespsImmediate : Nat → OracleResp :=
  fun _ => .parsed (some "Acute Pain") (some "matches vitals")

/-- A structurally valid plan that declares intervention ids `int1` and
`int2` in `interventions.independent` but gives a rationale entry only for
`int1`. -/
def cexPlan : JDict :=
  [("assessment", .obj [("subjective", .arr [.str "pain 8/10"]),
                        ("objective", .arr [.str "HR 110"])]),
   ("diagnosis", .obj [("statement", .str "Acute Pain related to tissue injury")]),
   ("outcomes", .obj [("short_term", .obj [("within 8 hours", .arr [.str "pain 3/10 or below"])])]),
   ("interventions", .obj [("independent", .arr
      [.obj [("id", .str "int1"), ("intervention", .str "Assess pain")],
       .obj [("id", .str "int2"), ("intervention", .str "Reposition")]])]),
   ("rationale", .obj [("interventions", .obj
      [("int1", .obj [("rationale", .str "establishes baseline"),
                      ("evidence", .str "(NANDA-I, 2021)")])])]),
   ("implementation", .obj [("independent", .arr
      [.obj [("id", .str "int1"), ("action_taken", .str "Assessed pain")]])]),
   ("evaluation", .obj [("short_term", .obj [("Met", .obj
      [("within 8 hours", .arr [.str "pain 2/10"])])])])]

/-- The JSON object text whose embedded `}` + backticks defeat the lazy
fence regex once the text is wrapped in a code fence. -/
def cexFenceJson : List Char := ("\x7b\"a\":\"\x7d```\"\x7d").data

/-- A plain JSON object text for witnesses. -/
def plainJson : List Char := ("\x7b\"a\": 1\x7d").data

/-- A duplicate-label candidate list: `d1` and `d2` normalise to the same
label. -/
def dupCands : List Candidate :=
  [{ id := "d1", diagnosis := "Acute Pain", definition := some "first copy",
     defining_characteristics := [], related_factors := [], risk_factors := [],
     suggested_outcomes := [], suggested_interventions := [] },
   { id := "d2", diagnosis := "  acute pain ", definition := some "second copy",
     defining_characteristics := [], related_factors := [], risk_factors := [],
     suggested_outcomes := [], suggested_interventions := [] },
   { id := "d3", diagnosis := "Anxiety", definition := none,
     defining_characteristics := [], related_factors := [], risk_factors := [],
     suggested_outcomes := [], suggested_interventions := [] }]

/-- The first candidate of `cexCands`. -/
def cexFirst : Candidate :=
  { id := "d1", diagnosis := "Acute Pain", definition := some "Unpleasant sensory experience",
    defining_characteristics := ["guarding"], related_factors := ["injury"],
    risk_factors := [], suggested_outcomes := ["pain reduced"],
    suggested_interventions := ["assess pain"] }

/-- The second candidate of `cexCands`. -/
def cexSecond : Candidate :=
  { id := "d2", diagnosis := "Anxiety", definition := none,
    defining_characteristics := [], related_factors := [],
    risk_factors := [], suggested_outcomes := [], suggested_interventions := [] }

/-- Oracle outcomes that always select a label outside the candidate set. -/
def cexRespsInvalid : Nat → OracleResp :=
  fun _ => .parsed (some "Nonexistent") (some "x")

/-- The first candidate of `dupCands`. -/
def dupFirst : Candidate :=
  { id := "d1", diagnosis := "Acute Pain", definition := some "first copy",
    defining_characteristics := [], related_factors := [], risk_factors := [],
    suggested_outcomes := [], suggested_interventions := [] }

/-!
## Theorems
-/

theorem find_matching_candidate_mem (sf : String) (reas : Option String) :
    ∀ (cands : List Candidate) (r : SelectionOut),
      find_matching_candidate sf reas cands = some r →
      ∃ c ∈ cands, r = resultOfCandidate c (reas.getD "No reasoning provided") := by
  intro cands
  induction cands with
  | nil => intro r hc; simp [find_matching_candidate] at hc
  | cons c rest ih =>
    intro r hc
    by_cases hm : normLabel c.diagnosis = pyLower (pyStrip sf.data)
    · simp [find_matching_candidate, hm] at hc
      exact ⟨c, by simp, hc.symm⟩
    · simp [find_matching_candidate, hm] at hc
      obtain ⟨c', hc', hr⟩ := ih r hc
      exact ⟨c', by simp [hc'], hr⟩

theorem selLoopAux_result_mem (cands : List Candidate) (resps : Nat → OracleResp)
    (c0 : Candidate) (cs : List Candidate) (h : cands = c0 :: cs) :
    ∀ (n i : Nat) (p : String),
      ∃ c ∈ cands, ∃ r, (selLoopAux cands resps n i p).result = resultOfCandidate c r := by
  intro n
  induction n with
  | zero =>
    intro i p
    exact ⟨c0, by simp [h], fallbackReasoning, by simp [selLoopAux, h]⟩
  | succ n ih =>
    intro i p
    cases hr : resps i with
    | parsed d reas =>
      by_cases hv : validate_ai_selection (d.getD "") cands = true
      · cases hf : find_matching_candidate (d.getD "") reas cands with
        | none => simpa [selLoopAux, hr, hv, hf] using ih (i + 1) p
        | some r =>
          obtain ⟨c, hc, hrr⟩ := find_matching_candidate_mem _ _ _ _ hf
          exact ⟨c, hc, reas.getD "No reasoning provided",
            by simp [selLoopAux, hr, hv, hf, hrr]⟩
      · simp only [Bool.not_eq_true] at hv
        simpa [selLoopAux, hr, hv] using ih (i + 1) _
    | empty => simpa [selLoopAux, hr] using ih (i + 1) p
    | noJson => simpa [selLoopAux, hr] using ih (i + 1) p
    | badJson => simpa [selLoopAux, hr] using ih (i + 1) p
    | typeErr => simpa [selLoopAux, hr] using ih (i + 1) p

/-- C1.  Membership invariant of selection: for every non-empty candidate
list and every sequence of oracle responses, the result of
`select_best_diagnosis` either has a `diagnosis` field equal (after
trimming and case-folding) to the `diagnosis` of some candidate in the
input list, or is the deterministic fallback built from the first
candidate — never an arbitrary string outside the candidate set. -/
theorem sel_membership_inv (fa : String) (cands : List Candidate)
    (resps : Nat → OracleResp) (c0 : Candidate) (cs : List Candidate)
    (h : cands = c0 :: cs) :
    (∃ c' ∈ cands, ∃ d, (select_best_diagnosis fa cands resps).result.diagnosis = some d ∧
        normLabel d = normLabel c'.diagnosis) ∨
    (select_best_diagnosis fa cands resps).result = resultOfCandidate c0 fallbackReasoning := by
  left
  subst h
  obtain ⟨c, hc, r, hres⟩ := selLoopAux_result_mem (c0 :: cs) resps c0 cs rfl 3 0
    (buildSelectionPrompt fa (c0 :: cs))
  refine ⟨c, hc, c.diagnosis, ?_, rfl⟩
  simp [select_best_diagnosis, hres, resultOfCandidate]

theorem sel_membership_inv_witness :
    cexCands = cexFirst :: [cexSecond] ∧
    ((∃ c' ∈ cexCands, ∃ d,
        (select_best_diagnosis "" cexCands cexRespsImmediate).result.diagnosis = some d ∧
        normLabel d = normLabel c'.diagnosis) ∨
      (select_best_diagnosis "" cexCands cexRespsImmediate).result =
        resultOfCandidate cexFirst fallbackReasoning) :=
  ⟨rfl, sel_membership_inv "" cexCands cexRespsImmediate cexFirst [cexSecond] rfl⟩

theorem selLoopAux_all_fail (cands : List Candidate) (resps : Nat → OracleResp)
    (c0 : Candidate) (cs : List Candidate) (h : cands = c0 :: cs) :
    ∀ (n i : Nat) (p : String),
      (∀ j, i ≤ j → j < i + n → selAttemptFails (resps j) cands) →
      (selLoopAux cands resps n i p).result = resultOfCandidate c0 fallbackReasoning := by
  intro n
  induction n with
  | zero => intro i p _; simp [selLoopAux, h]
  | succ n ih =>
    intro i p hfail
    have hnext : ∀ j, i + 1 ≤ j → j < (i + 1) + n → selAttemptFails (resps j) cands := by
      intro j h1 h2
      exact hfail j (by omega) (by omega)
    cases hr : resps i with
    | parsed d reas =>
      have hv : validate_ai_selection (d.getD "") cands = false := by
        have := hfail i (le_refl i) (by omega)
        rw [hr] at this
        exact this
      simpa [selLoopAux, hr, hv] using ih (i + 1) _ hnext
    | empty => simpa [selLoopAux, hr] using ih (i + 1) p hnext
    | noJson => simpa [selLoopAux, hr] using ih (i + 1) p hnext
    | badJson => simpa [selLoopAux, hr] using ih (i + 1) p hnext
    | typeErr => simpa [selLoopAux, hr] using ih (i + 1) p hnext

/-- C2.  Selection exhaustion is never an error: if all 3 attempts produce
responses that fail the validation predicate, `select_best_diagnosis`
returns (does not raise) a result equal to the first candidate of the input
list with its `reasoning` field replaced by a fixed string marking it as a
fallback (a string containing "fallback"). -/
theorem sel_exhaustion_fallback (fa : String) (cands : List Candidate)
    (resps : Nat → OracleResp) (c0 : Candidate) (cs : List Candidate)
    (h : cands = c0 :: cs)
    (hfail : ∀ j, j < 3 → selAttemptFails (resps j) cands) :
    (select_best_diagnosis fa cands resps).result = resultOfCandidate c0 fallbackReasoning ∧
    ("fallback").data <:+: fallbackReasoning.data := by
  constructor
  · subst h
    simp only [select_best_diagnosis, List.isEmpty_cons, Bool.false_eq_true, if_false]
    exact selLoopAux_all_fail _ resps c0 cs rfl 3 0 _
      (fun j h1 h2 => hfail j (by omega))
  · exact ⟨("AI selection failed after multiple attempts. Returned first candidate as ").data,
      (" based on highest similarity score.").data, by decide⟩

theorem sel_exhaustion_fallback_witness :
    cexCands = cexFirst :: [cexSecond] ∧
    (∀ j, j < 3 → selAttemptFails (cexRespsInvalid j) cexCands) ∧
    ((select_best_diagnosis "" cexCands cexRespsInvalid).result =
        resultOfCandidate cexFirst fallbackReasoning ∧
      ("fallback").data <:+: fallbackReasoning.data) :=
  ⟨rfl,
    fun _ _ => show validate_ai_selection ((some "Nonexistent").getD "") cexCands = false by decide,
    sel_exhaustion_fallback "" cexCands cexRespsInvalid cexFirst [cexSecond] rfl
      (fun _ _ =>
        show validate_ai_selection ((some "Nonexistent").getD "") cexCands = false by decide)⟩

/-- C3.  Empty-candidate short circuit: for every assessment input,
`select_best_diagnosis` applied to an empty candidate list returns the
"no diagnosis" sentinel (diagnosis and definition `None`, all array fields
empty, a fixed no-candidates reasoning string) and makes zero calls to the
generative oracle (no attempt prompt is ever issued). -/
theorem sel_empty_shortcircuit (fa : String) (resps : Nat → OracleResp) :
    select_best_diagnosis fa [] resps =
      { result := noDiagnosisResult, promptsUsed := [], trackEvents := [] } ∧
    noDiagnosisResult.diagnosis = none ∧
    noDiagnosisResult.definition = none ∧
    noDiagnosisResult.defining_characteristics = [] ∧
    noDiagnosisResult.related_factors = [] ∧
    noDiagnosisResult.risk_factors = [] ∧
    noDiagnosisResult.suggested_outcomes = [] ∧
    noDiagnosisResult.suggested_interventions = [] ∧
    noDiagnosisResult.reasoning =
      "No suitable diagnoses found for the provided assessment data." :=
  ⟨rfl, rfl, rfl, rfl, rfl, rfl, rfl, rfl, rfl⟩

/-- C10.  First-match determinism under duplicate labels: whenever some
candidate's trimmed, case-folded label equals the oracle's selection (in
particular when two or more candidates share that label),
`find_matching_candidate` merges the oracle's reasoning into the earliest
such candidate in list order, so the accepted result is a deterministic
function of the candidate order. -/
theorem sel_first_match_on_duplicates (selectedField : String) (reas : Option String)
    (cands : List Candidate)
    (hmatch : ∃ c ∈ cands, normLabel c.diagnosis = pyLower (pyStrip selectedField.data)) :
    ∃ pre cFirst suf, cands = pre ++ cFirst :: suf ∧
      normLabel cFirst.diagnosis = pyLower (pyStrip selectedField.data) ∧
      (∀ c' ∈ pre, normLabel c'.diagnosis ≠ pyLower (pyStrip selectedField.data)) ∧
      find_matching_candidate selectedField reas cands =
        some (resultOfCandidate cFirst (reas.getD "No reasoning provided")) := by
  induction cands with
  | nil => simp at hmatch
  | cons c rest ih =>
    by_cases hc : normLabel c.diagnosis = pyLower (pyStrip selectedField.data)
    · exact ⟨[], c, rest, rfl, hc, by simp, by simp [find_matching_candidate, hc]⟩
    · have hrest : ∃ c' ∈ rest, normLabel c'.diagnosis = pyLower (pyStrip selectedField.data) := by
        obtain ⟨c', hc', hnorm⟩ := hmatch
        rcases List.mem_cons.mp hc' with heq | hmem
        · exact absurd (heq ▸ hnorm) hc
        · exact ⟨c', hmem, hnorm⟩
      obtain ⟨pre, cf, suf, heq, hcf, hpre, hfind⟩ := ih hrest
      refine ⟨c :: pre, cf, suf, by simp [heq], hcf, ?_, ?_⟩
      · intro c' hc'
        rcases List.mem_cons.mp hc' with heq' | hmem'
        · exact heq' ▸ hc
        · exact hpre c' hmem'
      · simp [find_matching_candidate, hc, hfind]

theorem sel_first_match_on_duplicates_witness :
    (∃ c ∈ dupCands, normLabel c.diagnosis = pyLower (pyStrip ("Acute Pain").data)) ∧
    (∃ pre cFirst suf, dupCands = pre ++ cFirst :: suf ∧
      normLabel cFirst.diagnosis = pyLower (pyStrip ("Acute Pain").data) ∧
      (∀ c' ∈ pre, normLabel c'.diagnosis ≠ pyLower (pyStrip ("Acute Pain").data)) ∧
      find_matching_candidate "Acute Pain" (some "clinical fit") dupCands =
        some (resultOfCandidate cFirst ((some "clinical fit").getD "No reasoning provided"))) :=
  ⟨⟨dupFirst, by simp [dupCands, dupFirst], by decide⟩,
    sel_first_match_on_duplicates "Acute Pain" (some "clinical fit") dupCands
      ⟨dupFirst, by simp [dupCands, dupFirst], by decide⟩⟩

theorem genLoopAux_all_fail (resps : Nat → GenResp) :
    ∀ n i, n ≠ 0 → (∀ j, i ≤ j → j < i + n → genAttemptFails (resps j)) →
      (genLoopAux resps n i).result =
        .error (match resps (i + n - 1) with
                | GenResp.badJson => GenError.jsonParsingFailed
                | _ => GenError.generationFailed) := by
  intro n
  induction n with
  | zero => intro i h; exact absurd rfl h
  | succ n ih =>
    intro i _ hfail
    by_cases hn : n = 0
    · subst hn
      have hlast := hfail i (le_refl i) (by omega)
      cases hr : resps i with
      | plan fields =>
        rw [hr] at hlast
        simp only [genAttemptFails] at hlast
        simp [genLoopAux, hr, hlast]
      | transportErr => simp [genLoopAux, hr]
      | badJson => simp [genLoopAux, hr]
      | emptyResp => simp [genLoopAux, hr]
      | noJson => simp [genLoopAux, hr]
      | nonObjJson => simp [genLoopAux, hr]
    · have hnext : ∀ j, i + 1 ≤ j → j < (i + 1) + n → genAttemptFails (resps j) := by
        intro j h1 h2
        exact hfail j (by omega) (by omega)
      have hidx : (i + 1) + n - 1 = i + (n + 1) - 1 := by omega
      have hrec := ih (i + 1) hn hnext
      rw [hidx] at hrec
      cases hr : resps i with
      | plan fields =>
        have hlast := hfail i (le_refl i) (by omega)
        rw [hr] at hlast
        simp only [genAttemptFails] at hlast
        simpa [genLoopAux, hr, hn, hlast] using hrec
      | transportErr => simpa [genLoopAux, hr, hn] using hrec
      | badJson => simpa [genLoopAux, hr, hn] using hrec
      | emptyResp => simpa [genLoopAux, hr, hn] using hrec
      | noJson => simpa [genLoopAux, hr, hn] using hrec
      | nonObjJson => simpa [genLoopAux, hr, hn] using hrec

theorem genLoopAux_ok_validated (resps : Nat → GenResp) :
    ∀ n i fields, (genLoopAux resps n i).result = .ok fields →
      validate_ncp_structure fields = some true := by
  intro n
  induction n with
  | zero => intro i fields h; simp [genLoopAux] at h
  | succ n ih =>
    intro i fields h
    cases hr : resps i with
    | plan fs =>
      rw [genLoopAux] at h
      simp only [hr] at h
      by_cases hv : validate_ncp_structure fs = some true
      · simp [hv] at h
        exact h ▸ hv
      · by_cases hn : n = 0
        · simp [hv, hn] at h
        · simp [hv, hn] at h
          exact ih (i + 1) fields h
    | transportErr =>
      rw [genLoopAux] at h
      simp only [hr] at h
      by_cases hn : n = 0
      · simp [hn] at h
      · simp [hn] at h
        exact ih (i + 1) fields h
    | badJson =>
      rw [genLoopAux] at h
      simp only [hr] at h
      by_cases hn : n = 0
      · simp [hn] at h
      · simp [hn] at h
        exact ih (i + 1) fields h
    | emptyResp =>
      rw [genLoopAux] at h
      simp only [hr] at h
      by_cases hn : n = 0
      · simp [hn] at h
      · simp [hn] at h
        exact ih (i + 1) fields h
    | noJson =>
      rw [genLoopAux] at h
      simp only [hr] at h
      by_cases hn : n = 0
      · simp [hn] at h
      · simp [hn] at h
        exact ih (i + 1) fields h
    | nonObjJson =>
      rw [genLoopAux] at h
      simp only [hr] at h
      by_cases hn : n = 0
      · simp [hn] at h
      · simp [hn] at h
        exact ih (i + 1) fields h

/-- C7.  Generation exhaustion is a terminal error: if all 3 attempts of
`generate_structured_ncp` fail (JSON not extractable, JSON parse error, or
validation failure), the function raises a terminal "generation failed"
error (the JSON-decode handler's error when the last attempt was a parse
failure, the blanket handler's error otherwise) and never returns a partial
or degraded plan document: any returned plan passed
`validate_ncp_structure`. -/
theorem gen_exhaustion_terminal (resps : Nat → GenResp)
    (hfail : ∀ j, j < 3 → genAttemptFails (resps j)) :
    (generate_structured_ncp resps).result =
      .error (match resps 2 with
              | .badJson => GenError.jsonParsingFailed
              | _ => GenError.generationFailed) ∧
    ∀ (resps' : Nat → GenResp) fields,
      (generate_structured_ncp resps').result = .ok fields →
      validate_ncp_structure fields = some true := by
  constructor
  · exact genLoopAux_all_fail resps 3 0 (by omega) (fun j h1 h2 => hfail j (by omega))
  · intro resps' fields h
    exact genLoopAux_ok_validated resps' 3 0 fields h

theorem gen_exhaustion_terminal_witness :
    (∀ j, j < 3 → genAttemptFails ((fun _ => GenResp.badJson) j)) ∧
    ((generate_structured_ncp (fun _ => GenResp.badJson)).result =
      .error (match (fun _ => GenResp.badJson) 2 with
              | .badJson => GenError.jsonParsingFailed
              | _ => GenError.generationFailed) ∧
    ∀ (resps' : Nat → GenResp) fields,
      (generate_structured_ncp resps').result = .ok fields →
      validate_ncp_structure fields = some true) :=
  ⟨fun _ _ => trivial, gen_exhaustion_terminal (fun _ => GenResp.badJson) (fun _ _ => trivial)⟩

theorem selLoopAux_no_tracking (cands : List Candidate) (resps : Nat → OracleResp) :
    ∀ n i p, (selLoopAux cands resps n i p).trackEvents = [] := by
  intro n
  induction n with
  | zero => intro i p; simp [selLoopAux]
  | succ n ih =>
    intro i p
    cases hr : resps i with
    | parsed d reas =>
      by_cases hv : validate_ai_selection (d.getD "") cands = true
      · cases hf : find_matching_candidate (d.getD "") reas cands with
        | none => simpa [selLoopAux, hr, hv, hf] using ih (i + 1) p
        | some r => simp [selLoopAux, hr, hv, hf]
      · simp only [Bool.not_eq_true] at hv
        simpa [selLoopAux, hr, hv] using ih (i + 1) _
    | empty => simpa [selLoopAux, hr] using ih (i + 1) p
    | noJson => simpa [selLoopAux, hr] using ih (i + 1) p
    | badJson => simpa [selLoopAux, hr] using ih (i + 1) p
    | typeErr => simpa [selLoopAux, hr] using ih (i + 1) p

theorem genLoopAux_api_calls (resps : Nat → GenResp) :
    ∀ n i, (genLoopAux resps n i).trackEvents.filter isApiCall =
      ((genLoopAux resps n i).attempts.filter (fun j => !isTransportErr (resps j))).map
        (fun j => TrackEvent.apiCall "generate_ncp" (j + 1)) := by
  intro n
  induction n with
  | zero => intro i; simp [genLoopAux]
  | succ n ih =>
    intro i
    by_cases hn : n = 0
    · subst hn
      cases hr : resps i with
      | plan fields =>
        by_cases hv : validate_ncp_structure fields = some true
        · simp [genLoopAux, hr, hv, isApiCall, isTransportErr]
        · simp [genLoopAux, hr, hv, isApiCall, isTransportErr]
      | transportErr => simp [genLoopAux, hr, isApiCall, isTransportErr]
      | badJson => simp [genLoopAux, hr, isApiCall, isTransportErr]
      | emptyResp => simp [genLoopAux, hr, isApiCall, isTransportErr]
      | noJson => simp [genLoopAux, hr, isApiCall, isTransportErr]
      | nonObjJson => simp [genLoopAux, hr, isApiCall, isTransportErr]
    · have hrec := ih (i + 1)
      cases hr : resps i with
      | plan fields =>
        by_cases hv : validate_ncp_structure fields = some true
        · simp [genLoopAux, hr, hv, isApiCall, isTransportErr]
        · simp only [genLoopAux, hr, hv, if_false, hn]
          simp [isApiCall, isTransportErr, hrec, hr]
      | transportErr =>
        simp only [genLoopAux, hr, hn, if_false]
        simp [isTransportErr, hrec, hr]
      | badJson =>
        simp only [genLoopAux, hr, hn, if_false]
        simp [isApiCall, isTransportErr, hrec, hr]
      | emptyResp =>
        simp only [genLoopAux, hr, hn, if_false]
        simp [isApiCall, isTransportErr, hrec, hr]
      | noJson =>
        simp only [genLoopAux, hr, hn, if_false]
        simp [isApiCall, isTransportErr, hrec, hr]
      | nonObjJson =>
        simp only [genLoopAux, hr, hn, if_false]
        simp [isApiCall, isTransportErr, hrec, hr]

/-- C9, counterexample.  The claim says every selection-loop attempt
reports exactly one usage record; in this run the selection loop makes one
attempt (one prompt issued to the oracle) yet reports no tracking event at
all. -/
theorem tracking_per_attempt_cex :
    (select_best_diagnosis "" cexCands cexRespsImmediate).promptsUsed.length = 1 ∧
    (select_best_diagnosis "" cexCands cexRespsImmediate).trackEvents = [] := by
  constructor
  · decide
  · rfl

/-- C9, amended.  The selection loop of `select_best_diagnosis` reports no
usage records at all (its oracle calls are untracked); in the generation
loop of `generate_structured_ncp`, the usage records are exactly one
`track_api_call` per attempt whose API call returned, in order, and an
attempt whose call raised in transport reports none. -/
theorem tracking_per_attempt_rule :
    (∀ (fa : String) (cands : List Candidate) (resps : Nat → OracleResp),
      (select_best_diagnosis fa cands resps).trackEvents = []) ∧
    (∀ resps : Nat → GenResp,
      (generate_structured_ncp resps).trackEvents.filter isApiCall =
        ((generate_structured_ncp resps).attempts.filter
            (fun j => !isTransportErr (resps j))).map
          (fun j => TrackEvent.apiCall "generate_ncp" (j + 1))) := by
  constructor
  · intro fa cands resps
    by_cases h : cands.isEmpty
    · simp [select_best_diagnosis, h]
    · simp only [select_best_diagnosis, h, if_false]
      exact selLoopAux_no_tracking cands resps 3 0 _
  · intro resps
    exact genLoopAux_api_calls resps 3 0

/-- C5, counterexample.  A plan that declares intervention id `int2` in
`interventions.independent` with no entry for it in
`rationale.interventions` is nevertheless accepted by
`validate_ncp_structure`. -/
theorem ncp_referential_integrity_cex :
    ("int2") ∈ declaredIndependentIds cexPlan ∧
    ("int2") ∉ rationaleInterventionIds cexPlan ∧
    validate_ncp_structure cexPlan = some true :=
  ⟨by decide, by decide, by rfl⟩

/-- C5, amended.  The validator's referential stage only requires
`rationale` to be a dict with a truthy `interventions` entry: whenever that
entry is missing, not truthy, or `rationale` is missing or not a dict, the
plan is rejected; no per-id check against the declared interventions is
performed (see the counterexample). -/
theorem ncp_rationale_presence_only (ncp : JDict)
    (h : rationaleHasTruthyInterventions ncp = false) :
    validate_ncp_structure ncp ≠ some true := by
  intro hv
  unfold validate_ncp_structure at hv
  split at hv
  · exact absurd hv (by simp)
  · split at hv
    · exact absurd hv (by simp)
    · split at hv
      case h_2 => exact absurd hv (by simp)
      case h_1 ofs heqo =>
        rw [Option.bind_eq_some] at hv
        obtain ⟨hs, _, hv⟩ := hv
        rw [Option.bind_eq_some] at hv
        obtain ⟨hl, _, hv⟩ := hv
        split at hv
        · exact absurd hv (by simp)
        · split at hv
          case h_2 => exact absurd hv (by simp)
          case h_1 ifs heqi =>
            rw [Option.bind_eq_some] at hv
            obtain ⟨hi, _, hv⟩ := hv
            rw [Option.bind_eq_some] at hv
            obtain ⟨hd, _, hv⟩ := hv
            rw [Option.bind_eq_some] at hv
            obtain ⟨hc, _, hv⟩ := hv
            split at hv
            · exact absurd hv (by simp)
            · split at hv
              case h_2 => exact absurd hv (by simp)
              case h_1 rfs heqr =>
                rw [Option.some_inj] at hv
                unfold rationaleHasTruthyInterventions at h
                cases hj : jget ncp "rationale" with
                | none =>
                  rw [hj] at heqr
                  simp only [Option.getD_none] at heqr
                  cases heqr
                  simp [jget] at hv
                | some v =>
                  rw [hj] at heqr h
                  simp only [Option.getD_some] at heqr
                  subst heqr
                  cases hji : jget rfs "interventions" with
                  | none =>
                    rw [hji] at hv
                    exact absurd hv (by simp)
                  | some w =>
                    simp only [hji] at hv h
                    rw [hv] at h
                    exact absurd h (by simp)

theorem ncp_rationale_presence_only_witness :
    rationaleHasTruthyInterventions
      [("rationale", JValue.obj [("interventions", JValue.obj [])])] = false ∧
    validate_ncp_structure
      [("rationale", JValue.obj [("interventions", JValue.obj [])])] ≠ some true :=
  ⟨rfl, ncp_rationale_presence_only _ rfl⟩

theorem sectionContentOk_of_claimEmpty (v : JValue) (h : claimEmptySection v = true) :
    sectionContentOk v = false := by
  cases v with
  | str s =>
    simp only [claimEmptySection, decide_eq_true_eq] at h
    by_cases hs : s = ""
    · simp [sectionContentOk, jtruthy, hs]
    · simp [sectionContentOk, jtruthy, hs]
      omega
  | obj fields =>
    simp only [claimEmptySection, List.all_eq_true] at h
    cases fields with
    | nil => simp [sectionContentOk, jtruthy]
    | cons kv rest =>
      have hany : ((kv :: rest).any fun x => jtruthy x.2) = false := by
        rw [List.any_eq_false]
        intro x hx
        have hx2 := h x hx
        revert hx2
        cases jtruthy x.2 <;> simp
      show ((kv :: rest).any fun x => jtruthy x.2) = false
      exact hany
  | null => simp [claimEmptySection] at h
  | bool b => simp [claimEmptySection] at h
  | num t => simp [claimEmptySection] at h
  | arr items => simp [claimEmptySection] at h

theorem truthyWithLen_emptyish (fs : JDict) (k : String) (h : keyEmptyish fs k = true) :
    truthyWithLen fs k = some false := by
  unfold keyEmptyish at h
  unfold truthyWithLen
  cases hj : jget fs k with
  | none => rfl
  | some v =>
    rw [hj] at h
    have h' : (!jtruthy v) = true := h
    have hv : jtruthy v = false := by simpa using h'
    simp [hv]

theorem truthyWithLen_total (fs : JDict) (k : String) (h : keyCheckTotal fs k = true) :
    ∃ b, truthyWithLen fs k = some b := by
  unfold keyCheckTotal at h
  unfold truthyWithLen
  cases hj : jget fs k with
  | none => exact ⟨false, rfl⟩
  | some v =>
    rw [hj] at h
    by_cases ht : jtruthy v = true
    · simp only [ht, Bool.not_true, Bool.false_or] at h
      obtain ⟨n, hn⟩ := Option.isSome_iff_exists.mp h
      exact ⟨decide (0 < n), by simp [ht, hn]⟩
    · have hv := eq_false_of_ne_true ht
      exact ⟨false, by simp [hv]⟩

/-- C6.  Schema completeness of the plan validator:
`validate_ncp_structure` returns `False` (1) for every plan missing any of
the seven top-level sections, (2) for every plan where a required section
is empty (a string below the minimal stripped length of 10 or an object
with no truthy value), (3) for every plan whose `outcomes` has neither a
non-empty `short_term` nor `long_term`, and (4) for every plan whose
`interventions` has no non-empty category among
`independent`/`dependent`/`collaborative` (provided the `outcomes` stage
evaluates without raising, which the modelled `TypeError` would otherwise
preempt). -/
theorem ncp_schema_completeness :
    (∀ (ncp : JDict) (s : String), s ∈ requiredSections → jget ncp s = none →
      validate_ncp_structure ncp = some false) ∧
    (∀ (ncp : JDict) (s : String) (v : JValue), (s, v) ∈ ncp → s ∈ requiredSections →
      claimEmptySection v = true → validate_ncp_structure ncp = some false) ∧
    (∀ ncp : JDict, outcomesBothEmpty ncp → validate_ncp_structure ncp = some false) ∧
    (∀ ncp : JDict, outcomesCheckTotal ncp → interventionsNoCategory ncp →
      validate_ncp_structure ncp = some false) := by
  refine ⟨?_, ?_, ?_, ?_⟩
  · intro ncp s hs hget
    have hall : (requiredSections.all fun t => jmem ncp t) = false := by
      rw [List.all_eq_false]
      exact ⟨s, hs, by simp [jmem, hget]⟩
    simp only [validate_ncp_structure]
    rw [hall]
    simp
  · intro ncp s v hmem hs hempty
    by_cases h1 : (requiredSections.all fun t => jmem ncp t) = true
    · have h2 : (ncp.all fun kv =>
          !(requiredSections.contains kv.1) || sectionContentOk kv.2) = false := by
        rw [List.all_eq_false]
        refine ⟨(s, v), hmem, ?_⟩
        have hcont : requiredSections.contains s = true := List.elem_iff.mpr hs
        simp [hcont, hs, sectionContentOk_of_claimEmpty v hempty]
      simp only [validate_ncp_structure]
      rw [h1, h2]
      simp
    · have hall := eq_false_of_ne_true h1
      simp only [validate_ncp_structure]
      rw [hall]
      simp
  · rintro ncp ⟨ofs, hout, hse, hle⟩
    by_cases h1 : (requiredSections.all fun t => jmem ncp t) = true
    · by_cases h2 : (ncp.all fun kv =>
          !(requiredSections.contains kv.1) || sectionContentOk kv.2) = true
      · have hsv := truthyWithLen_emptyish ofs "short_term" hse
        have hlv := truthyWithLen_emptyish ofs "long_term" hle
        simp only [validate_ncp_structure]
        rw [h1, h2, hout]
        simp [hsv, hlv]
      · have h2f := eq_false_of_ne_true h2
        simp only [validate_ncp_structure]
        rw [h1, h2f]
        simp
    · have hall := eq_false_of_ne_true h1
      simp only [validate_ncp_structure]
      rw [hall]
      simp
  · rintro ncp htotal ⟨ifs, hint, hii, hid, hic⟩
    by_cases h1 : (requiredSections.all fun t => jmem ncp t) = true
    · by_cases h2 : (ncp.all fun kv =>
          !(requiredSections.contains kv.1) || sectionContentOk kv.2) = true
      · have hiv := truthyWithLen_emptyish ifs "independent" hii
        have hdv := truthyWithLen_emptyish ifs "dependent" hid
        have hcv := truthyWithLen_emptyish ifs "collaborative" hic
        cases hj : jget ncp "outcomes" with
        | none =>
          simp only [validate_ncp_structure]
          rw [h1, h2, hj]
          simp [truthyWithLen, jget]
        | some v =>
          cases v with
          | obj ofs =>
            obtain ⟨hst, hlt⟩ := htotal ofs hj
            obtain ⟨bs, hbs⟩ := truthyWithLen_total ofs "short_term" hst
            obtain ⟨bl, hbl⟩ := truthyWithLen_total ofs "long_term" hlt
            by_cases hor : (bs || bl) = true
            · simp only [validate_ncp_structure]
              rw [h1, h2, hj]
              simp [hbs, hbl, hor, hint, hiv, hdv, hcv]
            · have horf := eq_false_of_ne_true hor
              have hb : bs = false ∧ bl = false := by simpa using horf
              simp only [validate_ncp_structure]
              rw [h1, h2, hj]
              simp [hbs, hbl, hb.1, hb.2]
          | null =>
            simp only [validate_ncp_structure]
            rw [h1, h2, hj]
            simp
          | bool b =>
            simp only [validate_ncp_structure]
            rw [h1, h2, hj]
            simp
          | num t =>
            simp only [validate_ncp_structure]
            rw [h1, h2, hj]
            simp
          | str s =>
            simp only [validate_ncp_structure]
            rw [h1, h2, hj]
            simp
          | arr items =>
            simp only [validate_ncp_structure]
            rw [h1, h2, hj]
            simp
      · have h2f := eq_false_of_ne_true h2
        simp only [validate_ncp_structure]
        rw [h1, h2f]
        simp
    · have hall := eq_false_of_ne_true h1
      simp only [validate_ncp_structure]
      rw [hall]
      simp

theorem ncp_schema_completeness_witness :
    (("assessment") ∈ requiredSections ∧ jget ([] : JDict) "assessment" = none ∧
      validate_ncp_structure [] = some false) ∧
    ((("assessment", JValue.str "short") ∈
        [(("assessment" : String), JValue.str "short")]) ∧
      claimEmptySection (JValue.str "short") = true ∧
      validate_ncp_structure [(("assessment" : String), JValue.str "short")] = some false) ∧
    (outcomesBothEmpty [(("outcomes" : String), JValue.obj [])] ∧
      validate_ncp_structure [(("outcomes" : String), JValue.obj [])] = some false) ∧
    (interventionsNoCategory [(("interventions" : String), JValue.obj [])] ∧
      validate_ncp_structure [(("interventions" : String), JValue.obj [])] = some false) := by
  refine ⟨⟨by decide, rfl, ?_⟩, ⟨by simp, rfl, ?_⟩, ⟨⟨[], rfl, rfl, rfl⟩, ?_⟩,
    ⟨⟨[], rfl, rfl, rfl, rfl⟩, ?_⟩⟩
  · exact ncp_schema_completeness.1 [] "assessment" (by decide) rfl
  · exact ncp_schema_completeness.2.1 [(("assessment" : String), JValue.str "short")]
      "assessment" (JValue.str "short") (by simp) (by decide) rfl
  · exact ncp_schema_completeness.2.2.1 [(("outcomes" : String), JValue.obj [])]
      ⟨[], rfl, rfl, rfl⟩
  · exact ncp_schema_completeness.2.2.2 [(("interventions" : String), JValue.obj [])]
      (by intro ofs hof; simp [jget] at hof) ⟨[], rfl, rfl, rfl, rfl⟩

theorem replaceAllL_cons_pos {pat rep : List Char} {c : Char} {rest : List Char}
    (h : pat ≠ [] ∧ pat.isPrefixOf (c :: rest)) :
    replaceAllL pat rep (c :: rest) =
      rep ++ replaceAllL pat rep ((c :: rest).drop pat.length) := by
  rw [replaceAllL.eq_def]
  simp only [dif_pos h]

theorem replaceAllL_cons_neg {pat rep : List Char} {c : Char} {rest : List Char}
    (h : ¬(pat ≠ [] ∧ pat.isPrefixOf (c :: rest))) :
    replaceAllL pat rep (c :: rest) = c :: replaceAllL pat rep rest := by
  rw [replaceAllL.eq_def]
  simp only [dif_neg h]

theorem replaceAllL_nil (pat rep : List Char) : replaceAllL pat rep [] = [] := by
  rw [replaceAllL.eq_def]

theorem replaceAllL_length_le_aux (pat rep : List Char) (hlen : pat.length ≤ rep.length) :
    ∀ (n : Nat) (s : List Char), s.length ≤ n →
      s.length ≤ (replaceAllL pat rep s).length := by
  intro n
  induction n with
  | zero =>
    intro s hs
    have : s = [] := List.length_eq_zero.mp (Nat.le_zero.mp hs)
    subst this
    simp [replaceAllL_nil]
  | succ n ih =>
    intro s hs
    match s with
    | [] => simp [replaceAllL_nil]
    | c :: rest =>
      by_cases hp : pat ≠ [] ∧ pat.isPrefixOf (c :: rest)
      · rw [replaceAllL_cons_pos hp]
        have hplen : 0 < pat.length := List.length_pos.mpr hp.1
        have hple : pat.length ≤ (c :: rest).length :=
          (List.isPrefixOf_iff_prefix.mp hp.2).length_le
        have hdrop : ((c :: rest).drop pat.length).length =
            (c :: rest).length - pat.length := List.length_drop _ _
        have h1 : ((c :: rest).drop pat.length).length ≤ n := by
          simp only [hdrop, List.length_cons]
          simp only [List.length_cons] at hs
          omega
        have h2 := ih _ h1
        simp only [List.length_append, List.length_cons]
        simp only [hdrop, List.length_cons] at h2
        omega
      · rw [replaceAllL_cons_neg hp]
        have h1 : rest.length ≤ n := by
          simp only [List.length_cons] at hs
          omega
        have h2 := ih rest h1
        simp only [List.length_cons]
        omega

theorem replaceAllL_length_le (pat rep : List Char) (hlen : pat.length ≤ rep.length)
    (s : List Char) : s.length ≤ (replaceAllL pat rep s).length :=
  replaceAllL_length_le_aux pat rep hlen s.length s (le_refl _)

theorem infix_cons_elim {pat : List Char} {c : Char} {rest : List Char}
    (hinf : pat <:+: c :: rest) (hnp : ¬ pat <+: c :: rest) : pat <:+: rest := by
  obtain ⟨s, t, hst⟩ := hinf
  cases s with
  | nil => exact absurd ⟨t, by simpa using hst⟩ hnp
  | cons x s' =>
    refine ⟨s', t, ?_⟩
    have := hst
    simp only [List.cons_append] at this
    exact (List.cons.injEq _ _ _ _).mp this |>.2

theorem replaceAllL_length_lt_aux (pat rep : List Char) (hne : pat ≠ [])
    (hlen : pat.length < rep.length) :
    ∀ (n : Nat) (s : List Char), s.length ≤ n → pat <:+: s →
      s.length < (replaceAllL pat rep s).length := by
  intro n
  induction n with
  | zero =>
    intro s hs hinf
    have : s = [] := List.length_eq_zero.mp (Nat.le_zero.mp hs)
    subst this
    exact absurd (List.eq_nil_of_infix_nil hinf) hne
  | succ n ih =>
    intro s hs hinf
    match s with
    | [] => exact absurd (List.eq_nil_of_infix_nil hinf) hne
    | c :: rest =>
      by_cases hp : pat ≠ [] ∧ pat.isPrefixOf (c :: rest)
      · rw [replaceAllL_cons_pos hp]
        have hplen : 0 < pat.length := List.length_pos.mpr hne
        have hple : pat.length ≤ (c :: rest).length :=
          (List.isPrefixOf_iff_prefix.mp hp.2).length_le
        have hdrop : ((c :: rest).drop pat.length).length =
            (c :: rest).length - pat.length := List.length_drop _ _
        have h2 := replaceAllL_length_le pat rep (le_of_lt hlen) ((c :: rest).drop pat.length)
        simp only [List.length_append, List.length_cons]
        simp only [hdrop, List.length_cons] at h2
        simp only [List.length_cons] at hple
        omega
      · have hnpre : ¬ pat <+: c :: rest := by
          intro hpre
          exact hp ⟨hne, List.isPrefixOf_iff_prefix.mpr hpre⟩
        have hinf' : pat <:+: rest := infix_cons_elim hinf hnpre
        rw [replaceAllL_cons_neg hp]
        have h1 : rest.length ≤ n := by
          simp only [List.length_cons] at hs
          omega
        have h2 := ih rest h1 hinf'
        simp only [List.length_cons]
        omega

theorem replaceAllL_length_lt (pat rep : List Char) (hne : pat ≠ [])
    (hlen : pat.length < rep.length) (s : List Char) (hinf : pat <:+: s) :
    s.length < (replaceAllL pat rep s).length :=
  replaceAllL_length_lt_aux pat rep hne hlen s.length s (le_refl _) hinf

theorem replaceAllL_infix_aux (pat rep : List Char) (hne : pat ≠ []) :
    ∀ (n : Nat) (s : List Char), s.length ≤ n → pat <:+: s →
      rep <:+: replaceAllL pat rep s := by
  intro n
  induction n with
  | zero =>
    intro s hs hinf
    have : s = [] := List.length_eq_zero.mp (Nat.le_zero.mp hs)
    subst this
    exact absurd (List.eq_nil_of_infix_nil hinf) hne
  | succ n ih =>
    intro s hs hinf
    match s with
    | [] => exact absurd (List.eq_nil_of_infix_nil hinf) hne
    | c :: rest =>
      by_cases hp : pat ≠ [] ∧ pat.isPrefixOf (c :: rest)
      · rw [replaceAllL_cons_pos hp]
        exact ⟨[], replaceAllL pat rep ((c :: rest).drop pat.length), by simp⟩
      · have hnpre : ¬ pat <+: c :: rest := by
          intro hpre
          exact hp ⟨hne, List.isPrefixOf_iff_prefix.mpr hpre⟩
        have hinf' : pat <:+: rest := infix_cons_elim hinf hnpre
        rw [replaceAllL_cons_neg hp]
        have h1 : rest.length ≤ n := by
          simp only [List.length_cons] at hs
          omega
        exact List.infix_cons (ih rest h1 hinf')

theorem replaceAllL_infix (pat rep : List Char) (hne : pat ≠ []) (s : List Char)
    (hinf : pat <:+: s) : rep <:+: replaceAllL pat rep s :=
  replaceAllL_infix_aux pat rep hne s.length s (le_refl _) hinf

theorem criticalMarker_infix_buildPrompt (fa : String) (cands : List Candidate) :
    criticalMarker.data <:+: (buildSelectionPrompt fa cands).data := by
  refine ⟨selPromptPre.data,
    (selPromptMid1 ++ fa ++ selPromptMid2 ++ candidatesText cands ++ selPromptSuf).data, ?_⟩
  simp [buildSelectionPrompt, String.data_append, List.append_assoc]

set_option maxRecDepth 8000 in
theorem correctionBlock_data_eq (v : String) (cands : List Candidate) :
    (correctionBlock v cands).data = criticalMarker.data ++
      ((" - PREVIOUS ATTEMPT FAILED\n                                    YOUR LAST SELECTION \"" : String) ++ v ++
        ("\" WAS INVALID!\n                                    You must select from these EXACT names: " : String) ++
        String.intercalate ", " (cands.map (fun c => "\"" ++ c.diagnosis ++ "\"")) ++
        ("\n                                    " : String)).data := by
  have hsplit :
      ("# CRITICAL RULES - PREVIOUS ATTEMPT FAILED\n                                    YOUR LAST SELECTION \"" : String) =
        criticalMarker ++
          (" - PREVIOUS ATTEMPT FAILED\n                                    YOUR LAST SELECTION \"" : String) := rfl
  rw [correctionBlock, hsplit]
  simp [criticalMarker, String.data_append, List.append_assoc]

set_option maxRecDepth 8000 in
theorem criticalMarker_prefix_correctionBlock (v : String) (cands : List Candidate) :
    criticalMarker.data <:+: (correctionBlock v cands).data := by
  rw [correctionBlock_data_eq]
  exact (List.prefix_append _ _).isInfix

set_option maxRecDepth 8000 in
theorem criticalMarker_length_lt_correctionBlock (v : String) (cands : List Candidate) :
    criticalMarker.data.length < (correctionBlock v cands).data.length := by
  rw [correctionBlock_data_eq, List.length_append]
  have hpos : 0 <
      (((" - PREVIOUS ATTEMPT FAILED\n                                    YOUR LAST SELECTION \"" : String) ++ v ++
        ("\" WAS INVALID!\n                                    You must select from these EXACT names: " : String) ++
        String.intercalate ", " (cands.map (fun c => "\"" ++ c.diagnosis ++ "\"")) ++
        ("\n                                    " : String)).data).length := by
    simp [String.data_append]
  omega

theorem selLoopAux_prompt_spec (cands : List Candidate) (resps : Nat → OracleResp) :
    ∀ (n i : Nat) (p0 : String), criticalMarker.data <:+: p0.data →
      ((selLoopAux cands resps n i p0).promptsUsed = [] ∨
        (selLoopAux cands resps n i p0).promptsUsed.get? 0 = some p0) ∧
      (∀ q ∈ (selLoopAux cands resps n i p0).promptsUsed, criticalMarker.data <:+: q.data) ∧
      (∀ k p q,
        (selLoopAux cands resps n i p0).promptsUsed.get? k = some p →
        (selLoopAux cands resps n i p0).promptsUsed.get? (k + 1) = some q →
        (match resps (i + k) with
         | .parsed d _ =>
           validate_ai_selection (d.getD "") cands = false →
           q = pyReplace p criticalMarker (correctionBlock (d.getD "None") cands) ∧
           (correctionBlock (d.getD "None") cands).data <:+: q.data
         | _ => q = p)) := by
  intro n
  induction n with
  | zero =>
    intro i p0 hm
    refine ⟨Or.inl (by simp [selLoopAux]), ?_, ?_⟩
    · intro q hq
      simp [selLoopAux] at hq
    · intro k p q h1 _
      simp [selLoopAux] at h1
  | succ n ih =>
    intro i p0 hm
    cases hr : resps i with
    | parsed d reas =>
      by_cases hv : validate_ai_selection (d.getD "") cands = true
      · cases hf : find_matching_candidate (d.getD "") reas cands with
        | some r =>
          have htr : (selLoopAux cands resps (n + 1) i p0).promptsUsed = [p0] := by
            simp [selLoopAux, hr, hv, hf]
          refine ⟨Or.inr (by simp [htr]), ?_, ?_⟩
          · intro q hq
            rw [htr] at hq
            simp at hq
            exact hq ▸ hm
          · intro k p q h1 h2
            rw [htr] at h1 h2
            match k with
            | 0 => simp at h2
            | k + 1 => simp at h1
        | none =>
          have IH := ih (i + 1) p0 hm
          have htr : (selLoopAux cands resps (n + 1) i p0).promptsUsed =
              p0 :: (selLoopAux cands resps n (i + 1) p0).promptsUsed := by
            simp [selLoopAux, hr, hv, hf]
          refine ⟨Or.inr (by simp [htr]), ?_, ?_⟩
          · intro q hq
            rw [htr] at hq
            rcases List.mem_cons.mp hq with heq | hmem
            · exact heq ▸ hm
            · exact IH.2.1 q hmem
          · intro k p q h1 h2
            rw [htr] at h1 h2
            match k with
            | 0 =>
              simp only [List.get?_cons_zero, Option.some_inj] at h1
              simp only [List.get?_cons_succ] at h2
              have hq : q = p0 := by
                rcases IH.1 with hnil | hhead
                · rw [hnil] at h2; simp at h2
                · rw [h2] at hhead
                  exact Option.some_inj.mp hhead
              simp only [Nat.add_zero, hr]
              intro hfalse
              exact absurd hfalse (by simp [hv])
            | k + 1 =>
              simp only [List.get?_cons_succ] at h1 h2
              have := IH.2.2 k p q h1 h2
              have hidx : i + 1 + k = i + (k + 1) := by omega
              rw [hidx] at this
              exact this
      · simp only [Bool.not_eq_true] at hv
        have hne : criticalMarker.data ≠ [] := by decide
        set p' : String :=
          if n ≠ 0 then pyReplace p0 criticalMarker (correctionBlock (d.getD "None") cands)
          else p0 with hp'
        have hm' : criticalMarker.data <:+: p'.data := by
          rw [hp']
          by_cases hn : n = 0
          · simp [hn]
            exact hm
          · simp [hn]
            have hblock := replaceAllL_infix criticalMarker.data
              (correctionBlock (d.getD "None") cands).data hne p0.data hm
            exact List.IsInfix.trans
              (criticalMarker_prefix_correctionBlock (d.getD "None") cands)
              hblock
        have IH := ih (i + 1) p' hm'
        have htr : (selLoopAux cands resps (n + 1) i p0).promptsUsed =
            p0 :: (selLoopAux cands resps n (i + 1) p').promptsUsed := by
          simp only [selLoopAux, hr, hv]
          simp [hp']
        refine ⟨Or.inr (by simp [htr]), ?_, ?_⟩
        · intro q hq
          rw [htr] at hq
          rcases List.mem_cons.mp hq with heq | hmem
          · exact heq ▸ hm
          · exact IH.2.1 q hmem
        · intro k p q h1 h2
          rw [htr] at h1 h2
          match k with
          | 0 =>
            simp only [List.get?_cons_zero, Option.some_inj] at h1
            simp only [List.get?_cons_succ] at h2
            have hrest : (selLoopAux cands resps n (i + 1) p').promptsUsed ≠ [] := by
              intro hnil
              rw [hnil] at h2
              simp at h2
            have hn : n ≠ 0 := by
              intro hn0
              exact hrest (by simp [hn0, selLoopAux])
            have hq : q = p' := by
              rcases IH.1 with hnil | hhead
              · exact absurd hnil hrest
              · rw [h2] at hhead
                exact Option.some_inj.mp hhead
            simp only [Nat.add_zero, hr]
            intro _
            constructor
            · rw [hq, hp', if_pos hn, ← h1]
            · rw [hq, hp', if_pos hn]
              show (correctionBlock (d.getD "None") cands).data <:+:
                (String.mk (replaceAllL criticalMarker.data
                  (correctionBlock (d.getD "None") cands).data p0.data)).data
              exact replaceAllL_infix criticalMarker.data
                (correctionBlock (d.getD "None") cands).data hne p0.data hm
          | k + 1 =>
            simp only [List.get?_cons_succ] at h1 h2
            have := IH.2.2 k p q h1 h2
            have hidx : i + 1 + k = i + (k + 1) := by omega
            rw [hidx] at this
            exact this
    | empty =>
      have IH := ih (i + 1) p0 hm
      have htr : (selLoopAux cands resps (n + 1) i p0).promptsUsed =
          p0 :: (selLoopAux cands resps n (i + 1) p0).promptsUsed := by
        simp [selLoopAux, hr]
      refine ⟨Or.inr (by simp [htr]), ?_, ?_⟩
      · intro q hq
        rw [htr] at hq
        rcases List.mem_cons.mp hq with heq | hmem
        · exact heq ▸ hm
        · exact IH.2.1 q hmem
      · intro k p q h1 h2
        rw [htr] at h1 h2
        match k with
        | 0 =>
          simp only [List.get?_cons_zero, Option.some_inj] at h1
          simp only [List.get?_cons_succ] at h2
          have hq : q = p0 := by
            rcases IH.1 with hnil | hhead
            · rw [hnil] at h2; simp at h2
            · rw [h2] at hhead
              exact Option.some_inj.mp hhead
          simp only [Nat.add_zero, hr]
          rw [hq, ← h1]
        | k + 1 =>
          simp only [List.get?_cons_succ] at h1 h2
          have := IH.2.2 k p q h1 h2
          have hidx : i + 1 + k = i + (k + 1) := by omega
          rw [hidx] at this
          exact this
    | noJson =>
      have IH := ih (i + 1) p0 hm
      have htr : (selLoopAux cands resps (n + 1) i p0).promptsUsed =
          p0 :: (selLoopAux cands resps n (i + 1) p0).promptsUsed := by
        simp [selLoopAux, hr]
      refine ⟨Or.inr (by simp [htr]), ?_, ?_⟩
      · intro q hq
        rw [htr] at hq
        rcases List.mem_cons.mp hq with heq | hmem
        · exact heq ▸ hm
        · exact IH.2.1 q hmem
      · intro k p q h1 h2
        rw [htr] at h1 h2
        match k with
        | 0 =>
          simp only [List.get?_cons_zero, Option.some_inj] at h1
          simp only [List.get?_cons_succ] at h2
          have hq : q = p0 := by
            rcases IH.1 with hnil | hhead
            · rw [hnil] at h2; simp at h2
            · rw [h2] at hhead
              exact Option.some_inj.mp hhead
          simp only [Nat.add_zero, hr]
          rw [hq, ← h1]
        | k + 1 =>
          simp only [List.get?_cons_succ] at h1 h2
          have := IH.2.2 k p q h1 h2
          have hidx : i + 1 + k = i + (k + 1) := by omega
          rw [hidx] at this
          exact this
    | badJson =>
      have IH := ih (i + 1) p0 hm
      have htr : (selLoopAux cands resps (n + 1) i p0).promptsUsed =
          p0 :: (selLoopAux cands resps n (i + 1) p0).promptsUsed := by
        simp [selLoopAux, hr]
      refine ⟨Or.inr (by simp [htr]), ?_, ?_⟩
      · intro q hq
        rw [htr] at hq
        rcases List.mem_cons.mp hq with heq | hmem
        · exact heq ▸ hm
        · exact IH.2.1 q hmem
      · intro k p q h1 h2
        rw [htr] at h1 h2
        match k with
        | 0 =>
          simp only [List.get?_cons_zero, Option.some_inj] at h1
          simp only [List.get?_cons_succ] at h2
          have hq : q = p0 := by
            rcases IH.1 with hnil | hhead
            · rw [hnil] at h2; simp at h2
            · rw [h2] at hhead
              exact Option.some_inj.mp hhead
          simp only [Nat.add_zero, hr]
          rw [hq, ← h1]
        | k + 1 =>
          simp only [List.get?_cons_succ] at h1 h2
          have := IH.2.2 k p q h1 h2
          have hidx : i + 1 + k = i + (k + 1) := by omega
          rw [hidx] at this
          exact this
    | typeErr =>
      have IH := ih (i + 1) p0 hm
      have htr : (selLoopAux cands resps (n + 1) i p0).promptsUsed =
          p0 :: (selLoopAux cands resps n (i + 1) p0).promptsUsed := by
        simp [selLoopAux, hr]
      refine ⟨Or.inr (by simp [htr]), ?_, ?_⟩
      · intro q hq
        rw [htr] at hq
        rcases List.mem_cons.mp hq with heq | hmem
        · exact heq ▸ hm
        · exact IH.2.1 q hmem
      · intro k p q h1 h2
        rw [htr] at h1 h2
        match k with
        | 0 =>
          simp only [List.get?_cons_zero, Option.some_inj] at h1
          simp only [List.get?_cons_succ] at h2
          have hq : q = p0 := by
            rcases IH.1 with hnil | hhead
            · rw [hnil] at h2; simp at h2
            · rw [h2] at hhead
              exact Option.some_inj.mp hhead
          simp only [Nat.add_zero, hr]
          rw [hq, ← h1]
        | k + 1 =>
          simp only [List.get?_cons_succ] at h1 h2
          have := IH.2.2 k p q h1 h2
          have hidx : i + 1 + k = i + (k + 1) := by omega
          rw [hidx] at this
          exact this

/-- C4, counterexample.  After a failed attempt whose response is
unparsable JSON, the prompt used for the next attempt is NOT augmented: in
this run attempt 1 fails with a `json.loads` error and attempt 2 is issued
the identical initial prompt, while the corrective replacement (shown here
at the invalid value the claim would report) strictly lengthens any prompt
it is applied to, so no correction block was spliced in. -/
theorem sel_prompt_corrective_cex :
    (select_best_diagnosis "" cexCands cexRespsBadJsonFirst).promptsUsed.get? 1 =
      (select_best_diagnosis "" cexCands cexRespsBadJsonFirst).promptsUsed.get? 0 ∧
    (select_best_diagnosis "" cexCands cexRespsBadJsonFirst).promptsUsed.get? 0 =
      some (buildSelectionPrompt "" cexCands) ∧
    (buildSelectionPrompt "" cexCands).data.length <
      (pyReplace (buildSelectionPrompt "" cexCands) criticalMarker
        (correctionBlock "Nonexistent" cexCands)).data.length := by
  refine ⟨rfl, rfl, ?_⟩
  show (buildSelectionPrompt "" cexCands).data.length <
    (replaceAllL criticalMarker.data (correctionBlock "Nonexistent" cexCands).data
      (buildSelectionPrompt "" cexCands).data).length
  exact replaceAllL_length_lt _ _ (by decide)
    (criticalMarker_length_lt_correctionBlock _ _) _
    (criticalMarker_infix_buildPrompt "" cexCands)

/-- C4, amended.  In the selection loop, the prompt for the next attempt is
augmented — by splicing a correction block stating the previously chosen
invalid value and re-listing every candidate's exact label over the
`# CRITICAL RULES` heading — exactly after an attempt whose response parsed
to JSON but failed label validation; after an attempt with a missing or
unparsable response (or a non-string label) the next attempt reuses the
prompt unchanged. -/
theorem sel_prompt_corrective_rule (fa : String) (cands : List Candidate)
    (resps : Nat → OracleResp) :
    ∀ k p q,
      (select_best_diagnosis fa cands resps).promptsUsed.get? k = some p →
      (select_best_diagnosis fa cands resps).promptsUsed.get? (k + 1) = some q →
      (match resps k with
       | .parsed d _ =>
         validate_ai_selection (d.getD "") cands = false →
         q = pyReplace p criticalMarker (correctionBlock (d.getD "None") cands) ∧
         (correctionBlock (d.getD "None") cands).data <:+: q.data
       | _ => q = p) := by
  intro k p q h1 h2
  by_cases hc : cands.isEmpty
  · simp [select_best_diagnosis, hc] at h1
  · have hb : (cands.isEmpty : Bool) = false := eq_false_of_ne_true hc
    simp only [select_best_diagnosis, hb, Bool.false_eq_true, if_false] at h1 h2
    have spec := selLoopAux_prompt_spec cands resps 3 0 (buildSelectionPrompt fa cands)
      (criticalMarker_infix_buildPrompt fa cands)
    have := spec.2.2 k p q h1 h2
    simpa using this

theorem sel_prompt_corrective_rule_witness :
    ((select_best_diagnosis "" cexCands cexRespsInvalid).promptsUsed.get? 0 =
        some (buildSelectionPrompt "" cexCands)) ∧
    ((select_best_diagnosis "" cexCands cexRespsInvalid).promptsUsed.get? 1 =
        some (pyReplace (buildSelectionPrompt "" cexCands) criticalMarker
          (correctionBlock "Nonexistent" cexCands))) ∧
    (validate_ai_selection "Nonexistent" cexCands = false →
      pyReplace (buildSelectionPrompt "" cexCands) criticalMarker
          (correctionBlock "Nonexistent" cexCands) =
        pyReplace (buildSelectionPrompt "" cexCands) criticalMarker
          (correctionBlock "Nonexistent" cexCands) ∧
      (correctionBlock "Nonexistent" cexCands).data <:+:
        (pyReplace (buildSelectionPrompt "" cexCands) criticalMarker
          (correctionBlock "Nonexistent" cexCands)).data) :=
  ⟨rfl, rfl, sel_prompt_corrective_rule "" cexCands cexRespsInvalid 0 _ _ rfl rfl⟩

theorem fenceSearch_eq_none (s : List Char) (h : ¬ fenceTicks <:+: s) :
    fenceSearch s = none := by
  induction s with
  | nil => rfl
  | cons c rest ih =>
    have hpre : fenceTicks.isPrefixOf (c :: rest) = false := by
      by_contra hp
      have hp' : fenceTicks.isPrefixOf (c :: rest) = true := by
        revert hp
        cases fenceTicks.isPrefixOf (c :: rest) <;> simp
      exact h (List.isPrefixOf_iff_prefix.mp hp').isInfix
    have htf : tryFenceAt (c :: rest) = none := by
      unfold tryFenceAt
      rw [hpre]
      simp
    have hrest : ¬ fenceTicks <:+: rest := fun hinf => h (List.infix_cons hinf)
    unfold fenceSearch
    rw [htf]
    exact ih hrest

theorem lazyBody_spec (mid : List Char)
    (h : ∀ a b, mid = a ++ '}' :: b →
      closesFence (b ++ '}' :: '\n' :: fenceTicks) = false) :
    lazyBody (mid ++ '}' :: '\n' :: fenceTicks) = some (mid ++ ['}']) := by
  induction mid with
  | nil =>
    simp only [List.nil_append]
    unfold lazyBody
    have hc : closesFence ('\n' :: fenceTicks) = true := by decide
    simp [hc]
  | cons c mid' ih =>
    have h' : ∀ a b, mid' = a ++ '}' :: b →
        closesFence (b ++ '}' :: '\n' :: fenceTicks) = false := by
      intro a b hab
      exact h (c :: a) b (by simp [hab])
    have hrec := ih h'
    unfold lazyBody
    by_cases hc : c = '}'
    · have hcf := h [] mid' (by simp [hc])
      simp [hc, hcf, hrec]
    · simp [hc, hrec]

theorem closesFence_false_of_no_ticks (mid : List Char)
    (hticks : ¬ fenceTicks <:+: ('{' :: mid ++ ['}'])) :
    ∀ a b, mid = a ++ '}' :: b →
      closesFence (b ++ '}' :: '\n' :: fenceTicks) = false := by
  intro a b hab
  by_contra hcf
  have hcf' : closesFence (b ++ '}' :: '\n' :: fenceTicks) = true := by
    revert hcf
    cases closesFence (b ++ '}' :: '\n' :: fenceTicks) <;> simp
  unfold closesFence dropPyWs at hcf'
  rw [List.dropWhile_append] at hcf'
  by_cases hb : (List.dropWhile isPyWs b).isEmpty
  · rw [if_pos hb] at hcf'
    exact absurd hcf' (by decide)
  · rw [if_neg hb] at hcf'
    have hbticks : fenceTicks <:+: b := by
      cases hdw : List.dropWhile isPyWs b with
      | nil => rw [hdw] at hb; simp at hb
      | cons x r =>
        rw [hdw] at hcf'
        cases r with
        | nil => simp [fenceTicks, List.isPrefixOf] at hcf'
        | cons y r' =>
          cases r' with
          | nil => simp [fenceTicks, List.isPrefixOf] at hcf'
          | cons z r'' =>
            simp only [fenceTicks, List.cons_append, List.isPrefixOf,
              Bool.and_eq_true, beq_iff_eq] at hcf'
            obtain ⟨hx, hy, hz, _⟩ := hcf'
            subst hx
            subst hy
            subst hz
            have hpre : fenceTicks <+: ('`' :: '`' :: '`' :: r'') :=
              ⟨r'', by simp [fenceTicks]⟩
            have hsuf : ('`' :: '`' :: '`' :: r'') <:+ b := hdw ▸ List.dropWhile_suffix isPyWs
            exact hpre.isInfix.trans hsuf.isInfix
    have : fenceTicks <:+: ('{' :: mid ++ ['}']) := by
      have h1 : b <:+: mid := ⟨a ++ ['}'], [], by simp [hab]⟩
      have h2 : mid <:+: ('{' :: mid ++ ['}']) := ⟨['{'], ['}'], by simp⟩
      exact (hbticks.trans h1).trans h2
    exact hticks this

theorem wrapFences_cons_form (mid : List Char) :
    wrapFences ('{' :: mid ++ ['}']) =
      '`' :: '`' :: '`' :: 'j' :: 's' :: 'o' :: 'n' :: '\n' :: '{' ::
        (mid ++ '}' :: '\n' :: fenceTicks) := by
  simp [wrapFences, fenceTicks]

theorem tryFenceAt_wrap (mid : List Char)
    (h : ∀ a b, mid = a ++ '}' :: b →
      closesFence (b ++ '}' :: '\n' :: fenceTicks) = false) :
    tryFenceAt (wrapFences ('{' :: mid ++ ['}'])) = some ('{' :: mid ++ ['}']) := by
  rw [wrapFences_cons_form]
  show (lazyBody (mid ++ '}' :: '\n' :: fenceTicks)).map (fun g => '{' :: g) =
    some ('{' :: mid ++ ['}'])
  rw [lazyBody_spec mid h]
  simp

theorem fenceSearch_wrap (mid : List Char)
    (h : ∀ a b, mid = a ++ '}' :: b →
      closesFence (b ++ '}' :: '\n' :: fenceTicks) = false) :
    fenceSearch (wrapFences ('{' :: mid ++ ['}'])) = some ('{' :: mid ++ ['}']) := by
  have htf := tryFenceAt_wrap mid h
  rw [wrapFences_cons_form] at htf ⊢
  unfold fenceSearch
  rw [htf]

theorem pyRFind_close (mid : List Char) :
    pyRFind ('{' :: mid ++ ['}']) '}' = some (('{' :: mid ++ ['}']).length - 1) := by
  unfold pyRFind
  have hrev : ('{' :: mid ++ ['}']).reverse = '}' :: (mid.reverse ++ ['{']) := by
    simp
  rw [hrev]
  unfold pyFind
  simp

theorem braceSpan_self (mid : List Char) :
    (match pyFind ('{' :: mid ++ ['}']) '{', pyRFind ('{' :: mid ++ ['}']) '}' with
     | some st, some en =>
       some (((('{' :: mid ++ ['}']).drop st).take (en + 1 - st)))
     | _, _ => (none : Option (List Char))) = some ('{' :: mid ++ ['}']) := by
  have hfind : pyFind ('{' :: mid ++ ['}']) '{' = some 0 := by
    unfold pyFind
    simp
  rw [hfind, pyRFind_close]
  simp only [List.drop_zero, Nat.sub_zero]
  have hlen : ('{' :: mid ++ ['}']).length - 1 + 1 = ('{' :: mid ++ ['}']).length := by
    simp
  rw [hlen, List.take_length]

/-- C8, amended.  For every JSON object text (a `{`, a body, a closing `}`)
that does not contain three consecutive backticks, the shared extraction
procedure produces the identical span — and hence the identical parsed
object — whether the text is wrapped in a Markdown ```json code fence or
given bare. -/
theorem json_extraction_fence_idempotent (mid : List Char)
    (hticks : ¬ fenceTicks <:+: ('{' :: mid ++ ['}'])) :
    extractJsonSpan (wrapFences ('{' :: mid ++ ['}'])) = some ('{' :: mid ++ ['}']) ∧
    extractJsonSpan ('{' :: mid ++ ['}']) = some ('{' :: mid ++ ['}']) ∧
    extractAndParse (wrapFences ('{' :: mid ++ ['}'])) =
      extractAndParse ('{' :: mid ++ ['}']) := by
  have hclose := closesFence_false_of_no_ticks mid hticks
  have h1 : extractJsonSpan (wrapFences ('{' :: mid ++ ['}'])) =
      some ('{' :: mid ++ ['}']) := by
    unfold extractJsonSpan
    rw [fenceSearch_wrap mid hclose]
    exact braceSpan_self mid
  have h2 : extractJsonSpan ('{' :: mid ++ ['}']) = some ('{' :: mid ++ ['}']) := by
    unfold extractJsonSpan
    rw [fenceSearch_eq_none _ hticks]
    exact braceSpan_self mid
  exact ⟨h1, h2, by unfold extractAndParse; rw [h1, h2]⟩

theorem json_extraction_fence_idempotent_witness :
    (¬ fenceTicks <:+: ('{' :: ("\"a\": 1").data ++ ['}'])) ∧
    (extractJsonSpan (wrapFences ('{' :: ("\"a\": 1").data ++ ['}'])) =
        some ('{' :: ("\"a\": 1").data ++ ['}']) ∧
      extractJsonSpan ('{' :: ("\"a\": 1").data ++ ['}']) =
        some ('{' :: ("\"a\": 1").data ++ ['}']) ∧
      extractAndParse (wrapFences ('{' :: ("\"a\": 1").data ++ ['}'])) =
        extractAndParse ('{' :: ("\"a\": 1").data ++ ['}'])) :=
  ⟨by decide, json_extraction_fence_idempotent (("\"a\": 1").data) (by decide)⟩

/-- C8, counterexample.  For the JSON object text `{"a":"}` + three
backticks + `"}` (valid JSON: the string value contains `}` followed by
three backticks), wrapping in a ```json fence changes the extraction: the
lazy fence regex closes the group at the `}` inside the string, the
resulting span is not valid JSON, and the parsed object differs (no object
at all versus the original object). -/
theorem json_extraction_fence_cex :
    extractAndParse (wrapFences cexFenceJson) = none ∧
    extractAndParse cexFenceJson = some (JValue.obj [("a", JValue.str "\x7d```")]) :=
  ⟨rfl, rfl⟩
